import Mathlib

/-!
Verification of the EM-ExamMaker template parser and storage encoding.

This file gives a shallow embedding, in Lean 4, of the Python code in
src/exammaker (editor.py, models.py, storage.py, cli.py) of the
EM-ExamMaker repository, and proves the testable properties stated in its
specification against that embedding.

Conventions of the embedding:
- Python `str` becomes Lean `String`; the Python helpers used by the code
  (`str.splitlines`, `str.strip`, `str.lower`, `int(...)`, `repr(...)`,
  `"\n".join`) are modelled explicitly below, restricted to the ASCII
  behaviour where noted in their doc comments.
- Python exceptions become `Except`/`Option` results; the single exception
  class `TemplateParseError` becomes an inductive type with one constructor
  per raise site, together with a `message` function that renders exactly
  the message string built at that raise site.
- Python's insertion-ordered `dict` becomes an association list with an
  insert-or-overwrite operation (`dictInsert`) that keeps first-insertion
  position and overwrites values in place, i.e. exactly the observable
  behaviour of `d[k] = v`.
-/

namespace ExamMaker

/-! ## Python string primitives -/

/-- The characters Python's `str.strip()` (and `re`'s whitespace class)
treats as whitespace: the ASCII whitespace characters together with the
Unicode whitespace code points. -/
def pyIsSpace (c : Char) : Bool :=
  c = ' ' || c = '\t' || c = '\n' || c = '\r' || c = '\x0b' || c = '\x0c' ||
  c = '\x1c' || c = '\x1d' || c = '\x1e' || c = '\x1f' || c = '\x85' ||
  c = '\xa0' || c = '\u1680' ||
  ('\u2000' ≤ c && c ≤ '\u200a') ||
  c = '\u2028' || c = '\u2029' || c = '\u202f' || c = '\u205f' || c = '\u3000'

/-- The line-boundary characters of Python's `str.splitlines`. -/
def isLineBreak (c : Char) : Bool :=
  c = '\n' || c = '\r' || c = '\x0b' || c = '\x0c' ||
  c = '\x1c' || c = '\x1d' || c = '\x1e' || c = '\x85' ||
  c = '\u2028' || c = '\u2029'

/-- Normalize a CRLF pair to a single LF, as `splitlines` treats the pair
as one line boundary. -/
def normCrlf : List Char → List Char
  | [] => []
  | [c] => [c]
  | c :: d :: rest =>
    if c = '\r' && d = '\n' then '\n' :: normCrlf rest
    else c :: normCrlf (d :: rest)

/-- Split a character stream at line-boundary characters, accumulating the
current line in reverse.  A trailing line-boundary produces no extra empty
line, matching Python's `str.splitlines`. -/
def splitAux : List Char → List Char → List String
  | [], acc => if acc.isEmpty then [] else [⟨acc.reverse⟩]
  | c :: rest, acc =>
    if isLineBreak c then ⟨acc.reverse⟩ :: splitAux rest []
    else splitAux rest (c :: acc)

/-- Python's `str.splitlines()`. -/
def pySplitlines (s : String) : List String :=
  splitAux (normCrlf s.data) []

/-- Python's `str.strip()` with no argument: remove leading and trailing
whitespace. -/
def pyStrip (s : String) : String :=
  ⟨((s.data.dropWhile pyIsSpace).reverse.dropWhile pyIsSpace).reverse⟩

/-- Python's `"\n".join(lines)`. -/
def joinNl : List String → String
  | [] => ""
  | [l] => l
  | l :: m :: ls => l ++ "\n" ++ joinNl (m :: ls)

/-- Does the string start with the character `%`?  Used for the comment
filter `stripped.startswith("%")` (applied to already-stripped lines). -/
def headIsPercent (s : String) : Bool :=
  match s.data with
  | [] => false
  | c :: _ => c = '%'

/-- The filter `if stripped and not stripped.startswith("%")` applied to a
stripped line in the SOLUTION, CRITERIA and COURSES sections. -/
def isCandidate (s : String) : Bool :=
  !s.data.isEmpty && !headIsPercent s

/-- ASCII lower-casing of a character.  Python's `str.lower()` is the full
Unicode mapping; for the membership test against `{easy, medium, hard}` the
two agree, because no non-ASCII character lower-cases to a single ASCII
letter occurring in those words. -/
def asciiLowerChar (c : Char) : Char :=
  if 'A' ≤ c && c ≤ 'Z' then Char.ofNat (c.toNat + 32) else c

/-- Python's `str.lower()`, restricted to ASCII as explained above. -/
def pyLower (s : String) : String :=
  ⟨s.data.map asciiLowerChar⟩

/-- Digits-with-underscores part of Python's `int(str)`: underscores are
allowed only between digits. -/
def readDigits : List Char → Nat → Option Nat
  | [], acc => some acc
  | c :: cs, acc =>
    if c.isDigit then readDigits cs (acc * 10 + (c.toNat - 48))
    else if c = '_' then
      match cs with
      | c2 :: _ => if c2.isDigit then readDigits cs acc else none
      | [] => none
    else none

/-- Python's `int(s)` on a decimal string: surrounding whitespace is
ignored, an optional sign is followed by at least one ASCII digit, with
single underscores permitted between digits.  On ASCII input this is exact
in both directions.  Non-ASCII decimal digits, which Python also accepts,
are out of the modelled range, so `pyInt s = none` coincides with `int`
raising only for ASCII `s`; the theorem that relies on `pyInt` returning
`none` (the BadPoints half of C4) therefore carries an explicit
`asciiOnly` hypothesis on the points text. -/
def pyInt (s : String) : Option Int :=
  let cs := ((s.data.dropWhile pyIsSpace).reverse.dropWhile pyIsSpace).reverse
  match cs with
  | [] => none
  | '+' :: rest =>
    match rest with
    | c :: _ => if c.isDigit then (readDigits rest 0).map Int.ofNat else none
    | [] => none
  | '-' :: rest =>
    match rest with
    | c :: _ => if c.isDigit then (readDigits rest 0).map (fun n => -(n : Int)) else none
    | [] => none
  | c :: _ => if c.isDigit then (readDigits cs 0).map Int.ofNat else none

/-- Lower-case two-digit hexadecimal rendering of a byte, as used by
Python's `repr` for `\xNN` escapes. -/
def hexDigit (n : Nat) : Char :=
  if n < 10 then Char.ofNat (48 + n) else Char.ofNat (87 + n)

/-- Render one character inside a Python `repr` whose quote character is
`q`: backslash and the quote are escaped, `\n`, `\r`, `\t` use their short
escapes, other ASCII control characters (and DEL) use `\xNN`, and every
other character is kept as itself.  This is exact on ASCII and on
printable non-ASCII characters; non-printable non-ASCII characters
(e.g. U+00A0, U+0085, 0x80-0x9F), which Python escapes, are kept literal
here, so the theorems reasoning about `repr` output guard their text with
`reprSafe`, inside which the model is exact. -/
def pyReprChar (q : Char) (c : Char) : List Char :=
  if c = '\\' then ['\\', '\\']
  else if c = q then ['\\', q]
  else if c = '\n' then ['\\', 'n']
  else if c = '\r' then ['\\', 'r']
  else if c = '\t' then ['\\', 't']
  else if c.toNat < 0x20 || c.toNat = 0x7f then
    ['\\', 'x', hexDigit (c.toNat / 16 % 16), hexDigit (c.toNat % 16)]
  else [c]

/-- Python's `repr` of a string: single-quoted, unless the string contains
a single quote and no double quote, in which case it is double-quoted. -/
def pyRepr (s : String) : String :=
  let q : Char := if s.data.contains '\x27' && !s.data.contains '"' then '"' else '\x27'
  ⟨q :: (s.data.map (pyReprChar q)).flatten ++ [q]⟩

/-- Match a literal character sequence at the head of the input, returning
the remainder. -/
def matchLit : List Char → List Char → Option (List Char)
  | [], cs => some cs
  | _ :: _, [] => none
  | p :: ps, c :: cs => if c = p then matchLit ps cs else none

/-- Does `needle` occur at the head of `hay`? -/
def startsList (hay needle : List Char) : Bool :=
  (matchLit needle hay).isSome

/-- Substring test: does `needle` occur contiguously inside `hay`? -/
def containsSub (hay needle : List Char) : Bool :=
  match hay with
  | [] => needle.isEmpty
  | _ :: rest => startsList hay needle || containsSub rest needle

/-! ## Domain model (src/exammaker/models.py) -/

/-- `class Difficulty(str, Enum)` of models.py: easy, medium, hard. -/
inductive Difficulty where
  | easy
  | medium
  | hard
deriving DecidableEq

/-- The `.value` of a `Difficulty` member. -/
def Difficulty.value : Difficulty → String
  | .easy => "easy"
  | .medium => "medium"
  | .hard => "hard"

/-- The enum constructor `Difficulty(s)`: the member whose value is `s`,
if any.  The set comprehension over the enum members in editor.py is
exactly the domain of this map. -/
def difficultyOfValue (s : String) : Option Difficulty :=
  if s = "easy" then some .easy
  else if s = "medium" then some .medium
  else if s = "hard" then some .hard
  else none

/-- `class Criterion(BaseModel)` of models.py. -/
structure Criterion where
  description : String
  points : Int
deriving DecidableEq

/-- Modelled from the spec: the `CourseAssignment` value object —
`{ difficulty: Difficulty, topic: optional text (empty string normalizes
to absent) }` (spec §3).  models.py does not define this class even though
editor.py and the test suite import it from there; the definition is
therefore taken from the specification's words. -/
structure CourseAssignment where
  difficulty : Difficulty
  topic : Option String
deriving DecidableEq

/-- `class Item(BaseModel)` of models.py, as written there: note that the
`courses` field maps a course code to a bare `Difficulty`, not to a
`CourseAssignment`.  The auto-generated random `id` default is not
modelled; an `Item` here always carries its `id` explicitly. -/
structure Item where
  id : String
  body : String
  points : Int
  courses : List (String × Difficulty)
  criteria : List Criterion
  solution : Option String
deriving DecidableEq

/-! ## Template parser (src/exammaker/editor.py) -/

/-- `class TemplateParseError(ValueError)`: one constructor per raise site
in `parse_template`, carrying the literal values interpolated into the
message at that site. -/
inductive TemplateParseError where
  | emptyBody
  | badCriterionLine (line : String)
  | badPoints (pts : String)
  | badCourseLine (line : String)
  | invalidDifficulty (diff : String) (code : String)
deriving DecidableEq

/-- The exact message string each raise site passes to
`TemplateParseError(...)`, including the `repr` (`!r`) formatting. -/
def TemplateParseError.message : TemplateParseError → String
  | .emptyBody =>
      "Body section is empty — please write the question text between the BODY markers."
  | .badCriterionLine line =>
      "Bad criterion line: " ++ pyRepr line ++
      " — expected format: \\criterion\x7bdescription\x7d\x7bpoints\x7d"
  | .badPoints pts =>
      "Criterion points must be an integer, got: " ++ pyRepr pts
  | .badCourseLine line =>
      "Bad course line: " ++ pyRepr line ++
      " — expected format: \\course\x7bcourse_code\x7d\x7bdifficulty\x7d"
  | .invalidDifficulty diff code =>
      "Invalid difficulty " ++ pyRepr diff ++ " for course " ++ pyRepr code ++
      " — must be one of: easy, hard, medium"

/-- `@dataclass class ParsedTemplate` of editor.py.  The `courses` dict is
an insertion-ordered association list; its values are the spec-modelled
`CourseAssignment` (see that structure's comment). -/
structure ParsedTemplate where
  body : String
  criteria : List Criterion
  solution : Option String
  courses : List (String × CourseAssignment)
deriving DecidableEq

/-- `class _Section(Enum)` of editor.py. -/
inductive SectionState where
  | OUTSIDE
  | IN_BODY
  | IN_SOLUTION
  | IN_CRITERIA
  | IN_COURSES
deriving DecidableEq

/-- The mutable scan state of `parse_template`'s line loop. -/
structure ScanState where
  state : SectionState
  body_lines : List String
  solution_lines : List String
  criteria_lines : List String
  courses_lines : List String
deriving DecidableEq

/-- The initial scan state. -/
def initScan : ScanState :=
  ⟨.OUTSIDE, [], [], [], []⟩

/-- One iteration of the `for line in content.splitlines()` loop of
`parse_template`, reproducing its if/elif chain verbatim. -/
def scanLine (st : ScanState) (line : String) : ScanState :=
  let stripped := pyStrip line
  if stripped = "% @@BEGIN_BODY" then { st with state := .IN_BODY }
  else if stripped = "% @@END_BODY" then { st with state := .OUTSIDE }
  else if stripped = "% @@BEGIN_SOLUTION" then { st with state := .IN_SOLUTION }
  else if stripped = "% @@END_SOLUTION" then { st with state := .OUTSIDE }
  else if stripped = "% @@BEGIN_CRITERIA" then { st with state := .IN_CRITERIA }
  else if stripped = "% @@END_CRITERIA" then { st with state := .OUTSIDE }
  else if stripped = "% @@BEGIN_COURSES" then { st with state := .IN_COURSES }
  else if stripped = "% @@END_COURSES" then { st with state := .OUTSIDE }
  else if st.state = .IN_BODY then { st with body_lines := st.body_lines ++ [line] }
  else if st.state = .IN_SOLUTION then
    if isCandidate stripped then { st with solution_lines := st.solution_lines ++ [stripped] }
    else st
  else if st.state = .IN_CRITERIA then
    if isCandidate stripped then { st with criteria_lines := st.criteria_lines ++ [stripped] }
    else st
  else if st.state = .IN_COURSES then
    if isCandidate stripped then { st with courses_lines := st.courses_lines ++ [stripped] }
    else st
  else st

/-- The eight section marker strings. -/
def markerStrings : List String :=
  ["% @@BEGIN_BODY", "% @@END_BODY",
   "% @@BEGIN_SOLUTION", "% @@END_SOLUTION",
   "% @@BEGIN_CRITERIA", "% @@END_CRITERIA",
   "% @@BEGIN_COURSES", "% @@END_COURSES"]

/-- The state a marker string transitions the scan into. -/
def markerTarget (s : String) : SectionState :=
  if s = "% @@BEGIN_BODY" then .IN_BODY
  else if s = "% @@BEGIN_SOLUTION" then .IN_SOLUTION
  else if s = "% @@BEGIN_CRITERIA" then .IN_CRITERIA
  else if s = "% @@BEGIN_COURSES" then .IN_COURSES
  else .OUTSIDE

/-- The regex `_CRITERION_RE` of editor.py
(`^\s*\\criterion\{([^}]*)\}\{([^}]*)\}\s*$`) as a deterministic matcher:
because `\` is not whitespace and each `[^}]*` group is ended by a literal
`}` excluded from the class, the greedy regex has exactly one possible
match, computed here directly.  Returns the two capture groups. -/
def matchCriterion (s : String) : Option (String × String) :=
  let cs := s.data.dropWhile pyIsSpace
  match matchLit "\\criterion\x7b".data cs with
  | none => none
  | some r1 =>
    let g1 := r1.takeWhile (fun c => c ≠ '\x7d')
    match matchLit ['\x7d', '\x7b'] (r1.dropWhile (fun c => c ≠ '\x7d')) with
    | none => none
    | some r2 =>
      let g2 := r2.takeWhile (fun c => c ≠ '\x7d')
      match matchLit ['\x7d'] (r2.dropWhile (fun c => c ≠ '\x7d')) with
      | none => none
      | some tail => if tail.all pyIsSpace then some (⟨g1⟩, ⟨g2⟩) else none

/-- The regex `_COURSE_RE` of editor.py
(`^\s*\\course\{([^}]*)\}\{([^}]*)\}\{([^}]*)\}\s*$`), like
`matchCriterion` but with three groups. -/
def matchCourse (s : String) : Option (String × String × String) :=
  let cs := s.data.dropWhile pyIsSpace
  match matchLit "\\course\x7b".data cs with
  | none => none
  | some r1 =>
    let g1 := r1.takeWhile (fun c => c ≠ '\x7d')
    match matchLit ['\x7d', '\x7b'] (r1.dropWhile (fun c => c ≠ '\x7d')) with
    | none => none
    | some r2 =>
      let g2 := r2.takeWhile (fun c => c ≠ '\x7d')
      match matchLit ['\x7d', '\x7b'] (r2.dropWhile (fun c => c ≠ '\x7d')) with
      | none => none
      | some r3 =>
        let g3 := r3.takeWhile (fun c => c ≠ '\x7d')
        match matchLit ['\x7d'] (r3.dropWhile (fun c => c ≠ '\x7d')) with
        | none => none
        | some tail => if tail.all pyIsSpace then some (⟨g1⟩, ⟨g2⟩, ⟨g3⟩) else none

/-- Python's ordered-`dict` assignment `d[k] = v`: overwrite in place when
the key is present, append otherwise. -/
def dictInsert {β : Type} (l : List (String × β)) (k : String) (v : β) : List (String × β) :=
  match l with
  | [] => [(k, v)]
  | (k1, v1) :: rest => if k1 = k then (k1, v) :: rest else (k1, v1) :: dictInsert rest k v

/-- The `for raw in criteria_lines` loop of `parse_template`: fail on the
first line not matching `_CRITERION_RE`, then on the first points argument
`int` rejects; otherwise collect the criteria in source order. -/
def parseCriteria : List String → Except TemplateParseError (List Criterion)
  | [] => .ok []
  | raw :: rest =>
    match matchCriterion raw with
    | none => .error (.badCriterionLine raw)
    | some (g1, g2) =>
      let desc := pyStrip g1
      let pts_str := pyStrip g2
      match pyInt pts_str with
      | none => .error (.badPoints pts_str)
      | some pts =>
        match parseCriteria rest with
        | .error e => .error e
        | .ok cs => .ok (⟨desc, pts⟩ :: cs)

/-- The `for raw in courses_lines` loop of `parse_template`, threading the
insertion-ordered `courses` dict. -/
def parseCourses : List String → List (String × CourseAssignment) →
    Except TemplateParseError (List (String × CourseAssignment))
  | [], acc => .ok acc
  | raw :: rest, acc =>
    match matchCourse raw with
    | none => .error (.badCourseLine raw)
    | some (g1, g2, g3) =>
      let code := pyStrip g1
      let diff_str := pyLower (pyStrip g2)
      let topic_str := if pyStrip g3 = "" then none else some (pyStrip g3)
      match difficultyOfValue diff_str with
      | none => .error (.invalidDifficulty diff_str code)
      | some d => parseCourses rest (dictInsert acc code ⟨d, topic_str⟩)

/-- The post-scan half of `parse_template`: body emptiness check, solution
normalization, criteria validation, course validation. -/
def finishParse (fin : ScanState) : Except TemplateParseError ParsedTemplate :=
  let body := pyStrip (joinNl fin.body_lines)
  if body = "" then .error .emptyBody
  else
    let solution_text :=
      let s := pyStrip (joinNl fin.solution_lines)
      if s = "" then none else some s
    match parseCriteria fin.criteria_lines with
    | .error e => .error e
    | .ok criteria =>
      match parseCourses fin.courses_lines [] with
      | .error e => .error e
      | .ok courses => .ok ⟨body, criteria, solution_text, courses⟩

/-- `parse_template(content)` of editor.py: scan the lines with the state
machine, then validate and assemble the `ParsedTemplate`. -/
def parse_template (content : String) : Except TemplateParseError ParsedTemplate :=
  finishParse ((pySplitlines content).foldl scanLine initScan)

/-! ## Storage encoding (src/exammaker/storage.py) -/

/-- The document trees produced by `item.model_dump(mode="json")` and
consumed by `Item.model_validate`: the YAML/JSON value universe needed by
the `Item` fields. -/
inductive YValue where
  | ystr (s : String)
  | yint (n : Int)
  | ynull
  | ylist (xs : List YValue)
  | ymap (kvs : List (String × YValue))

/-- `criterion.model_dump(mode="json")`. -/
def Criterion.dump (c : Criterion) : YValue :=
  .ymap [("description", .ystr c.description), ("points", .yint c.points)]

/-- `item.model_dump(mode="json")`: the field order of models.py (id,
body, points, courses, criteria, solution); a `Difficulty` serializes as
its string value, an absent solution as null. -/
def Item.model_dump (it : Item) : YValue :=
  .ymap [("id", .ystr it.id),
         ("body", .ystr it.body),
         ("points", .yint it.points),
         ("courses", .ymap (it.courses.map (fun kv => (kv.1, YValue.ystr kv.2.value)))),
         ("criteria", .ylist (it.criteria.map Criterion.dump)),
         ("solution", match it.solution with | none => .ynull | some s => .ystr s)]

/-- Validate one `courses` entry value as a `Difficulty`. -/
def validateDifficulty : YValue → Option Difficulty
  | .ystr s => difficultyOfValue s
  | _ => none

/-- Validate a `courses` map into the `dict[str, Difficulty]` field. -/
def validateCoursesList : List (String × YValue) → Option (List (String × Difficulty))
  | [] => some []
  | (k, v) :: rest =>
    match validateDifficulty v, validateCoursesList rest with
    | some d, some tl => some ((k, d) :: tl)
    | _, _ => none

/-- Validate one criteria entry as a `Criterion`. -/
def validateCriterion : YValue → Option Criterion
  | .ymap kvs =>
    match List.lookup "description" kvs, List.lookup "points" kvs with
    | some (.ystr d), some (.yint p) => some ⟨d, p⟩
    | _, _ => none
  | _ => none

/-- Validate a criteria list. -/
def validateCriteriaList : List YValue → Option (List Criterion)
  | [] => some []
  | v :: rest =>
    match validateCriterion v, validateCriteriaList rest with
    | some c, some tl => some (c :: tl)
    | _, _ => none

/-- `Item.model_validate(data)`: require each declared field with its
declared type (an explicitly supplied id, as in every document written by
`save_item`). -/
def Item.model_validate (v : YValue) : Option Item :=
  match v with
  | .ymap kvs =>
    match List.lookup "id" kvs, List.lookup "body" kvs, List.lookup "points" kvs,
          List.lookup "courses" kvs, List.lookup "criteria" kvs,
          List.lookup "solution" kvs with
    | some (.ystr id), some (.ystr body), some (.yint points),
      some (.ymap cs), some (.ylist crs), some sol =>
      match validateCoursesList cs, validateCriteriaList crs with
      | some courses, some criteria =>
        match sol with
        | .ynull => some ⟨id, body, points, courses, criteria, none⟩
        | .ystr s => some ⟨id, body, points, courses, criteria, some s⟩
        | _ => none
      | _, _ => none
    | _, _, _, _, _, _ => none
  | _ => none

/-- `save_item(item, directory)` of storage.py: writes
`yaml.dump(item.model_dump(mode="json"))` to `directory/<id>.yaml`.  The
YAML text layer is the external PyYAML collaborator (spec §6 places the
storage serialization outside the core); it is modelled as the identity on
the document tree, so `save_item` returns the file name and the document
it serializes. -/
def save_item (it : Item) : String × YValue :=
  (it.id ++ ".yaml", Item.model_dump it)

/-- `load_item(path)` of storage.py: `yaml.safe_load` recovers the written
document tree (external PyYAML collaborator, modelled as the identity), to
which `Item.model_validate` is applied. -/
def load_item (doc : YValue) : Option Item :=
  Item.model_validate doc

/-! ## Template construction helpers for the statements -/

/-- A template whose four marked regions hold the given lines, in the
canonical order of `ITEM_TEMPLATE`. -/
def mkTemplate (body solution criteria courses : List String) : String :=
  joinNl (["% @@BEGIN_BODY"] ++ body ++
          ["% @@END_BODY", "% @@BEGIN_SOLUTION"] ++ solution ++
          ["% @@END_SOLUTION", "% @@BEGIN_CRITERIA"] ++ criteria ++
          ["% @@END_CRITERIA", "% @@BEGIN_COURSES"] ++ courses ++
          ["% @@END_COURSES"])

/-- A line free of `splitlines` line-boundary characters, i.e. one that
survives as a single line inside a joined template. -/
def lineFree (s : String) : Bool :=
  s.data.all (fun c => !isLineBreak c)

/-- A line that is not one of the eight marker lines (after stripping). -/
def notMarker (s : String) : Bool :=
  !(markerStrings.contains (pyStrip s))

/-- The stripped candidate lines a content-section region contributes,
in order: blank and comment lines are dropped, all others stripped. -/
def candidates (ls : List String) : List String :=
  ls.filterMap (fun l => if isCandidate (pyStrip l) then some (pyStrip l) else none)

/-- `\criterion{d}{p}` rendered as a source line. -/
def renderCriterion (d p : String) : String :=
  "\\criterion\x7b" ++ d ++ "\x7d\x7b" ++ p ++ "\x7d"

/-- `\course{c}{d}{t}` rendered as a source line. -/
def renderCourse (c d t : String) : String :=
  "\\course\x7b" ++ c ++ "\x7d\x7b" ++ d ++ "\x7d\x7b" ++ t ++ "\x7d"

/-- A string with no closing brace, usable as a regex group payload. -/
def braceFree (s : String) : Bool :=
  s.data.all (fun c => c ≠ '\x7d')

/-- The normalized topic of a course line: `strip` then empty-to-absent. -/
def topicOf (t : String) : Option String :=
  if pyStrip t = "" then none else some (pyStrip t)

/-- `points = sum(c.points for c in parsed.criteria)` computed by
`item_add` in cli.py before constructing the `Item`. -/
def item_points (pt : ParsedTemplate) : Int :=
  (pt.criteria.map Criterion.points).sum

/-- A string of ASCII characters only: the range on which `pyInt` agrees
with Python's `int()` in both directions (Python additionally accepts
non-ASCII decimal digits, which `pyInt` does not model). -/
def asciiOnly (s : String) : Bool :=
  s.data.all (fun c => c.toNat < 128)

/-- Characters printable as themselves inside a Python `repr`: ASCII,
not a control character, not a backslash, not a single quote. -/
def reprSafeChar (c : Char) : Bool :=
  0x20 ≤ c.toNat && c.toNat < 0x7f && c ≠ '\\' && c ≠ '\x27'

/-- A string `repr` renders as itself between two single quotes. -/
def reprSafe (s : String) : Bool :=
  s.data.all reprSafeChar

/-- The shape of one line given to the CRITERIA region in the statements:
either a well-formed `\criterion{d}{p}` line whose points parse to `n`, or
a line that the section filter skips (blank or comment). -/
inductive CLine where
  | crit (d p : String) (n : Int)
  | skip (s : String)

/-- The source line a `CLine` stands for. -/
def CLine.render : CLine → String
  | .crit d p _ => renderCriterion d p
  | .skip s => s

/-- Well-formedness of a `CLine`: a `crit` line has brace-free,
line-break-free groups and integer points; a `skip` line is filtered out by
the candidate test and is not a marker. -/
def CLineOK : CLine → Prop
  | .crit d p n => braceFree d = true ∧ braceFree p = true ∧
      lineFree d = true ∧ lineFree p = true ∧ pyInt (pyStrip p) = some n
  | .skip s => lineFree s = true ∧ isCandidate (pyStrip s) = false ∧ notMarker s = true

/-- The criterion a `CLine` contributes to the parsed output, if any. -/
def CLine.out : CLine → Option Criterion
  | .crit d _ n => some ⟨pyStrip d, n⟩
  | .skip _ => none

/-- The candidate line a `CLine` contributes to the criteria buffer, if
any. -/
def CLine.cand : CLine → Option String
  | .crit d p _ => some (renderCriterion d p)
  | .skip _ => none

/-! ## Basic lemmas on the string primitives -/

theorem data_append (a b : String) : (a ++ b).data = a.data ++ b.data := rfl

theorem string_eta (s : String) : String.mk s.data = s := rfl

theorem string_mk_eq_iff (a b : List Char) : String.mk a = String.mk b ↔ a = b := by
  constructor
  · intro h
    exact congrArg String.data h
  · intro h
    rw [h]

theorem takeWhile_append_end {α : Type} {p : α → Bool} (xs : List α) (y : α) (ys : List α)
    (hxs : ∀ c ∈ xs, p c = true) (hy : p y = false) :
    (xs ++ y :: ys).takeWhile p = xs := by
  induction xs with
  | nil => simp [List.takeWhile, hy]
  | cons x xs ih =>
    have hx : p x = true := hxs x (by simp)
    have ih2 := ih (fun c hc => hxs c (by simp [hc]))
    simp [List.takeWhile_cons, hx, ih2]

theorem dropWhile_append_end {α : Type} {p : α → Bool} (xs : List α) (y : α) (ys : List α)
    (hxs : ∀ c ∈ xs, p c = true) (hy : p y = false) :
    (xs ++ y :: ys).dropWhile p = y :: ys := by
  induction xs with
  | nil => simp [List.dropWhile, hy]
  | cons x xs ih =>
    have hx : p x = true := hxs x (by simp)
    simp only [List.cons_append, List.dropWhile_cons, hx]
    simp only [if_true]
    exact ih (fun c hc => hxs c (by simp [hc]))

theorem dropWhile_all_nil {α : Type} {p : α → Bool} (xs : List α)
    (hxs : ∀ c ∈ xs, p c = true) : xs.dropWhile p = [] := by
  induction xs with
  | nil => rfl
  | cons x xs ih =>
    have hx : p x = true := hxs x (by simp)
    simp only [List.dropWhile_cons, hx, if_true]
    exact ih (fun c hc => hxs c (by simp [hc]))

theorem matchLit_self_append (p cs : List Char) : matchLit p (p ++ cs) = some cs := by
  induction p with
  | nil => rfl
  | cons x xs ih => simp [matchLit, ih]

theorem containsSub_of_startsList (hay needle : List Char)
    (h : startsList hay needle = true) : containsSub hay needle = true := by
  cases hay with
  | nil =>
    cases needle with
    | nil => rfl
    | cons c cs => simp [startsList, matchLit] at h
  | cons x t =>
    rw [show containsSub (x :: t) needle =
          (startsList (x :: t) needle || containsSub t needle) from rfl, h]
    rfl

theorem containsSub_cons_of (x : Char) (t n : List Char)
    (h : containsSub t n = true) : containsSub (x :: t) n = true := by
  rw [show containsSub (x :: t) n = (startsList (x :: t) n || containsSub t n) from rfl, h]
  simp

theorem containsSub_append_mid (a s b : List Char) :
    containsSub (a ++ (s ++ b)) s = true := by
  induction a with
  | nil =>
    simp only [List.nil_append]
    exact containsSub_of_startsList _ _ (by simp [startsList, matchLit_self_append])
  | cons x a ih =>
    simp only [List.cons_append]
    exact containsSub_cons_of _ _ _ ih

/-! ## Splitting a joined template recovers its lines -/

theorem normCrlf_cons (c : Char) (cs : List Char) (hc : c ≠ '\r') :
    normCrlf (c :: cs) = c :: normCrlf cs := by
  cases cs with
  | nil => rfl
  | cons d rest => simp [normCrlf, hc]

theorem normCrlf_eq_self (cs : List Char) (h : ∀ c ∈ cs, c ≠ '\r') :
    normCrlf cs = cs := by
  induction cs with
  | nil => rfl
  | cons c rest ih =>
    rw [normCrlf_cons c rest (h c (by simp)), ih (fun x hx => h x (by simp [hx]))]

theorem data_ne_nil_of_ne_empty {m : String} (hm : m ≠ "") : m.data ≠ [] := by
  intro h0
  apply hm
  rw [← string_eta m, h0]

theorem splitAux_no_break (cs : List Char) (acc : List Char)
    (h : ∀ c ∈ cs, isLineBreak c = false) (hne : acc.reverse ++ cs ≠ []) :
    splitAux cs acc = [⟨acc.reverse ++ cs⟩] := by
  induction cs generalizing acc with
  | nil =>
    simp only [List.append_nil] at hne
    have hacc : ¬acc.isEmpty = true := by
      simp only [List.isEmpty_iff]
      intro h0
      apply hne
      simp [h0]
    simp [splitAux, hacc]
  | cons c rest ih =>
    have hc : isLineBreak c = false := h c (by simp)
    have ih2 := ih (c :: acc) (fun x hx => h x (by simp [hx])) (by simp)
    calc splitAux (c :: rest) acc = splitAux rest (c :: acc) := by simp [splitAux, hc]
    _ = [⟨(c :: acc).reverse ++ rest⟩] := ih2
    _ = [⟨acc.reverse ++ c :: rest⟩] := by simp

theorem splitAux_content_append (cs rest acc : List Char)
    (h : ∀ c ∈ cs, isLineBreak c = false) :
    splitAux (cs ++ '\n' :: rest) acc = ⟨acc.reverse ++ cs⟩ :: splitAux rest [] := by
  induction cs generalizing acc with
  | nil =>
    simp only [List.nil_append, List.append_nil]
    rw [show splitAux ('\n' :: rest) acc =
          if isLineBreak '\n' then ⟨acc.reverse⟩ :: splitAux rest [] else splitAux rest ('\n' :: acc)
        from rfl]
    simp [show isLineBreak '\n' = true from rfl]
  | cons c cs ih =>
    have hc : isLineBreak c = false := h c (by simp)
    have ih2 := ih (c :: acc) (fun x hx => h x (by simp [hx]))
    calc splitAux ((c :: cs) ++ '\n' :: rest) acc
        = splitAux (cs ++ '\n' :: rest) (c :: acc) := by simp [splitAux, hc]
    _ = ⟨(c :: acc).reverse ++ cs⟩ :: splitAux rest [] := ih2
    _ = ⟨acc.reverse ++ c :: cs⟩ :: splitAux rest [] := by simp

theorem joinNl_cons_append (l : String) (L : List String) (m : String) :
    joinNl (l :: (L ++ [m])) = l ++ "\n" ++ joinNl (L ++ [m]) := by
  cases L with
  | nil => rfl
  | cons x xs => rfl

theorem lineFree_no_break {l : String} (h : lineFree l = true) :
    ∀ c ∈ l.data, isLineBreak c = false := by
  intro c hc
  have := (List.all_eq_true.mp h) c hc
  simpa using this

theorem joinNl_no_break (L : List String) (h : ∀ l ∈ L, lineFree l = true) :
    ∀ c ∈ (joinNl L).data, c = '\n' ∨ isLineBreak c = false := by
  induction L with
  | nil => intro c hc; simp [joinNl] at hc
  | cons l ls ih =>
    cases ls with
    | nil =>
      intro c hc
      exact Or.inr (lineFree_no_break (h l (by simp)) c hc)
    | cons m ms =>
      intro c hc
      rw [show joinNl (l :: m :: ms) = l ++ "\n" ++ joinNl (m :: ms) from rfl] at hc
      simp only [data_append, List.append_assoc, List.mem_append] at hc
      rcases hc with hc | hc | hc
      · exact Or.inr (lineFree_no_break (h l (by simp)) c hc)
      · left; simpa using hc
      · exact ih (fun x hx => h x (by simp [List.mem_cons, hx])) c hc

theorem pySplitlines_joinNl (L : List String) (m : String)
    (h : ∀ l ∈ L ++ [m], lineFree l = true) (hm : m ≠ "") :
    pySplitlines (joinNl (L ++ [m])) = L ++ [m] := by
  induction L with
  | nil =>
    simp only [List.nil_append]
    show splitAux (normCrlf m.data) [] = [m]
    have hfree := lineFree_no_break (h m (by simp))
    rw [normCrlf_eq_self _ (fun c hc heq => by
      have := hfree c hc
      rw [heq] at this
      exact absurd this (by decide))]
    rw [splitAux_no_break m.data [] hfree (by simpa using data_ne_nil_of_ne_empty hm)]
    simp [string_eta]
  | cons l L ih =>
    have hl : lineFree l = true := h l (by simp)
    have htail : ∀ x ∈ L ++ [m], lineFree x = true := fun x hx => h x (by simp [hx])
    rw [List.cons_append, joinNl_cons_append]
    show splitAux (normCrlf (l ++ "\n" ++ joinNl (L ++ [m])).data) [] = l :: (L ++ [m])
    have hdata : (l ++ "\n" ++ joinNl (L ++ [m])).data =
        l.data ++ '\n' :: (joinNl (L ++ [m])).data := by
      simp [data_append]
    rw [hdata]
    have hnocr : ∀ c ∈ l.data ++ '\n' :: (joinNl (L ++ [m])).data, c ≠ '\r' := by
      intro c hc
      rcases List.mem_append.mp hc with hc | hc
      · intro heq
        have := lineFree_no_break hl c hc
        rw [heq] at this
        exact absurd this (by decide)
      · rcases List.mem_cons.mp hc with hc | hc
        · rw [hc]; decide
        · rcases joinNl_no_break (L ++ [m]) htail c hc with hc2 | hc2
          · rw [hc2]; decide
          · intro heq
            rw [heq] at hc2
            exact absurd hc2 (by decide)
    rw [normCrlf_eq_self _ hnocr]
    rw [splitAux_content_append l.data _ [] (lineFree_no_break hl)]
    have ihr := ih htail
    unfold pySplitlines at ihr
    rw [normCrlf_eq_self _ (fun c hc heq => by
      rcases joinNl_no_break (L ++ [m]) htail c hc with hc2 | hc2
      · rw [heq] at hc2; exact absurd hc2 (by decide)
      · rw [heq] at hc2; exact absurd hc2 (by decide))] at ihr
    rw [ihr]
    simp [string_eta]

/-! ## Scan state-machine lemmas -/

theorem notMarker_elim {l : String} (h : notMarker l = true) :
    pyStrip l ≠ "% @@BEGIN_BODY" ∧ pyStrip l ≠ "% @@END_BODY" ∧
    pyStrip l ≠ "% @@BEGIN_SOLUTION" ∧ pyStrip l ≠ "% @@END_SOLUTION" ∧
    pyStrip l ≠ "% @@BEGIN_CRITERIA" ∧ pyStrip l ≠ "% @@END_CRITERIA" ∧
    pyStrip l ≠ "% @@BEGIN_COURSES" ∧ pyStrip l ≠ "% @@END_COURSES" := by
  simpa [notMarker, markerStrings, not_or] using h

theorem scanLine_marker (st : ScanState) (line : String)
    (h : pyStrip line ∈ markerStrings) :
    scanLine st line = { st with state := markerTarget (pyStrip line) } := by
  simp only [markerStrings, List.mem_cons, List.not_mem_nil, or_false] at h
  rcases h with h | h | h | h | h | h | h | h <;> simp [scanLine, markerTarget, h]

theorem scanLine_body (st : ScanState) (line : String)
    (hm : notMarker line = true) (hst : st.state = .IN_BODY) :
    scanLine st line = { st with body_lines := st.body_lines ++ [line] } := by
  obtain ⟨h1, h2, h3, h4, h5, h6, h7, h8⟩ := notMarker_elim hm
  simp [scanLine, h1, h2, h3, h4, h5, h6, h7, h8, hst]

theorem scanLine_sol (st : ScanState) (line : String)
    (hm : notMarker line = true) (hst : st.state = .IN_SOLUTION) :
    scanLine st line =
      if isCandidate (pyStrip line)
      then { st with solution_lines := st.solution_lines ++ [pyStrip line] }
      else st := by
  obtain ⟨h1, h2, h3, h4, h5, h6, h7, h8⟩ := notMarker_elim hm
  simp [scanLine, h1, h2, h3, h4, h5, h6, h7, h8, hst]

theorem scanLine_crit (st : ScanState) (line : String)
    (hm : notMarker line = true) (hst : st.state = .IN_CRITERIA) :
    scanLine st line =
      if isCandidate (pyStrip line)
      then { st with criteria_lines := st.criteria_lines ++ [pyStrip line] }
      else st := by
  obtain ⟨h1, h2, h3, h4, h5, h6, h7, h8⟩ := notMarker_elim hm
  simp [scanLine, h1, h2, h3, h4, h5, h6, h7, h8, hst]

theorem scanLine_courses (st : ScanState) (line : String)
    (hm : notMarker line = true) (hst : st.state = .IN_COURSES) :
    scanLine st line =
      if isCandidate (pyStrip line)
      then { st with courses_lines := st.courses_lines ++ [pyStrip line] }
      else st := by
  obtain ⟨h1, h2, h3, h4, h5, h6, h7, h8⟩ := notMarker_elim hm
  simp [scanLine, h1, h2, h3, h4, h5, h6, h7, h8, hst]

theorem foldl_scan_body (ls : List String) (st : ScanState)
    (hst : st.state = .IN_BODY) (h : ∀ l ∈ ls, notMarker l = true) :
    ls.foldl scanLine st = { st with body_lines := st.body_lines ++ ls } := by
  induction ls generalizing st with
  | nil => simp
  | cons l ls ih =>
    rw [List.foldl_cons, scanLine_body st l (h l (by simp)) hst]
    rw [ih { st with body_lines := st.body_lines ++ [l] } hst (fun x hx => h x (by simp [hx]))]
    simp

theorem foldl_scan_sol (ls : List String) (st : ScanState)
    (hst : st.state = .IN_SOLUTION) (h : ∀ l ∈ ls, notMarker l = true) :
    ls.foldl scanLine st = { st with solution_lines := st.solution_lines ++ candidates ls } := by
  induction ls generalizing st with
  | nil => simp [candidates]
  | cons l ls ih =>
    rw [List.foldl_cons, scanLine_sol st l (h l (by simp)) hst]
    by_cases hc : isCandidate (pyStrip l) = true
    · rw [if_pos hc, ih { st with solution_lines := st.solution_lines ++ [pyStrip l] } hst (fun x hx => h x (by simp [hx]))]
      simp [candidates, List.filterMap_cons, hc]
    · rw [if_neg hc, ih st hst (fun x hx => h x (by simp [hx]))]
      simp only [Bool.not_eq_true] at hc
      simp [candidates, List.filterMap_cons, hc]

theorem foldl_scan_crit (ls : List String) (st : ScanState)
    (hst : st.state = .IN_CRITERIA) (h : ∀ l ∈ ls, notMarker l = true) :
    ls.foldl scanLine st = { st with criteria_lines := st.criteria_lines ++ candidates ls } := by
  induction ls generalizing st with
  | nil => simp [candidates]
  | cons l ls ih =>
    rw [List.foldl_cons, scanLine_crit st l (h l (by simp)) hst]
    by_cases hc : isCandidate (pyStrip l) = true
    · rw [if_pos hc, ih { st with criteria_lines := st.criteria_lines ++ [pyStrip l] } hst (fun x hx => h x (by simp [hx]))]
      simp [candidates, List.filterMap_cons, hc]
    · rw [if_neg hc, ih st hst (fun x hx => h x (by simp [hx]))]
      simp only [Bool.not_eq_true] at hc
      simp [candidates, List.filterMap_cons, hc]

theorem foldl_scan_courses (ls : List String) (st : ScanState)
    (hst : st.state = .IN_COURSES) (h : ∀ l ∈ ls, notMarker l = true) :
    ls.foldl scanLine st = { st with courses_lines := st.courses_lines ++ candidates ls } := by
  induction ls generalizing st with
  | nil => simp [candidates]
  | cons l ls ih =>
    rw [List.foldl_cons, scanLine_courses st l (h l (by simp)) hst]
    by_cases hc : isCandidate (pyStrip l) = true
    · rw [if_pos hc, ih { st with courses_lines := st.courses_lines ++ [pyStrip l] } hst (fun x hx => h x (by simp [hx]))]
      simp [candidates, List.filterMap_cons, hc]
    · rw [if_neg hc, ih st hst (fun x hx => h x (by simp [hx]))]
      simp only [Bool.not_eq_true] at hc
      simp [candidates, List.filterMap_cons, hc]

theorem scanLine_outside (st : ScanState) (line : String)
    (hm : notMarker line = true) (hst : st.state = .OUTSIDE) :
    scanLine st line = st := by
  obtain ⟨h1, h2, h3, h4, h5, h6, h7, h8⟩ := notMarker_elim hm
  simp [scanLine, h1, h2, h3, h4, h5, h6, h7, h8, hst]

theorem scanLine_noBody (st : ScanState) (line : String)
    (hst : st.state ≠ .IN_BODY) (hline : pyStrip line ≠ "% @@BEGIN_BODY") :
    (scanLine st line).body_lines = st.body_lines ∧ (scanLine st line).state ≠ .IN_BODY := by
  by_cases hmark : pyStrip line ∈ markerStrings
  · rw [scanLine_marker st line hmark]
    refine ⟨rfl, ?_⟩
    simp only [markerStrings, List.mem_cons, List.not_mem_nil, or_false] at hmark
    rcases hmark with h | h | h | h | h | h | h | h
    · exact absurd h hline
    all_goals simp [markerTarget, h]
  · have hm : notMarker line = true := by simp [notMarker, hmark]
    cases hstate : st.state with
    | OUTSIDE => rw [scanLine_outside st line hm hstate]; exact ⟨rfl, by simp [hstate]⟩
    | IN_BODY => exact absurd hstate hst
    | IN_SOLUTION =>
      rw [scanLine_sol st line hm hstate]
      by_cases hc : isCandidate (pyStrip line) = true
      · rw [if_pos hc]; exact ⟨rfl, by simp [hstate]⟩
      · rw [if_neg hc]; exact ⟨rfl, by simp [hstate]⟩
    | IN_CRITERIA =>
      rw [scanLine_crit st line hm hstate]
      by_cases hc : isCandidate (pyStrip line) = true
      · rw [if_pos hc]; exact ⟨rfl, by simp [hstate]⟩
      · rw [if_neg hc]; exact ⟨rfl, by simp [hstate]⟩
    | IN_COURSES =>
      rw [scanLine_courses st line hm hstate]
      by_cases hc : isCandidate (pyStrip line) = true
      · rw [if_pos hc]; exact ⟨rfl, by simp [hstate]⟩
      · rw [if_neg hc]; exact ⟨rfl, by simp [hstate]⟩

theorem foldl_scan_noBody (ls : List String) (st : ScanState)
    (hst : st.state ≠ .IN_BODY) (h : ∀ l ∈ ls, pyStrip l ≠ "% @@BEGIN_BODY") :
    (ls.foldl scanLine st).body_lines = st.body_lines ∧
    (ls.foldl scanLine st).state ≠ .IN_BODY := by
  induction ls generalizing st with
  | nil => exact ⟨rfl, hst⟩
  | cons l ls ih =>
    rw [List.foldl_cons]
    obtain ⟨hb, hs⟩ := scanLine_noBody st l hst (h l (by simp))
    obtain ⟨hb2, hs2⟩ := ih (scanLine st l) hs (fun x hx => h x (by simp [hx]))
    exact ⟨hb2.trans hb, hs2⟩

/-! ## Scanning a built template -/

theorem pySplitlines_mkTemplate (b s c k : List String)
    (hbf : ∀ l ∈ b, lineFree l = true) (hsf : ∀ l ∈ s, lineFree l = true)
    (hcf : ∀ l ∈ c, lineFree l = true) (hkf : ∀ l ∈ k, lineFree l = true) :
    pySplitlines (mkTemplate b s c k) =
      ["% @@BEGIN_BODY"] ++ b ++ ["% @@END_BODY", "% @@BEGIN_SOLUTION"] ++ s ++
      ["% @@END_SOLUTION", "% @@BEGIN_CRITERIA"] ++ c ++
      ["% @@END_CRITERIA", "% @@BEGIN_COURSES"] ++ k ++ ["% @@END_COURSES"] := by
  unfold mkTemplate
  apply pySplitlines_joinNl
  · intro l hl
    simp only [List.append_assoc, List.mem_append, List.mem_cons, List.mem_singleton,
      List.not_mem_nil, or_false] at hl
    rcases hl with h | h | (h | h) | h | (h | h) | h | (h | h) | h | h
    all_goals
      first
        | exact hbf l h
        | exact hsf l h
        | exact hcf l h
        | exact hkf l h
        | (subst h; decide)
  · decide

theorem scan_mkTemplate (b s c k : List String)
    (hb : ∀ l ∈ b, notMarker l = true) (hs : ∀ l ∈ s, notMarker l = true)
    (hc : ∀ l ∈ c, notMarker l = true) (hk : ∀ l ∈ k, notMarker l = true)
    (hbf : ∀ l ∈ b, lineFree l = true) (hsf : ∀ l ∈ s, lineFree l = true)
    (hcf : ∀ l ∈ c, lineFree l = true) (hkf : ∀ l ∈ k, lineFree l = true) :
    (pySplitlines (mkTemplate b s c k)).foldl scanLine initScan =
      ⟨.OUTSIDE, b, candidates s, candidates c, candidates k⟩ := by
  rw [pySplitlines_mkTemplate b s c k hbf hsf hcf hkf]
  have e1 : List.foldl scanLine initScan ["% @@BEGIN_BODY"] =
      (⟨.IN_BODY, [], [], [], []⟩ : ScanState) := rfl
  have e2 : List.foldl scanLine ⟨.IN_BODY, [], [], [], []⟩ b =
      (⟨.IN_BODY, b, [], [], []⟩ : ScanState) := by
    rw [foldl_scan_body b _ rfl hb]
    simp
  have e3 : List.foldl scanLine ⟨.IN_BODY, b, [], [], []⟩
      ["% @@END_BODY", "% @@BEGIN_SOLUTION"] = (⟨.IN_SOLUTION, b, [], [], []⟩ : ScanState) := rfl
  have e4 : List.foldl scanLine ⟨.IN_SOLUTION, b, [], [], []⟩ s =
      (⟨.IN_SOLUTION, b, candidates s, [], []⟩ : ScanState) := by
    rw [foldl_scan_sol s _ rfl hs]
    simp
  have e5 : List.foldl scanLine ⟨.IN_SOLUTION, b, candidates s, [], []⟩
      ["% @@END_SOLUTION", "% @@BEGIN_CRITERIA"] =
      (⟨.IN_CRITERIA, b, candidates s, [], []⟩ : ScanState) := rfl
  have e6 : List.foldl scanLine ⟨.IN_CRITERIA, b, candidates s, [], []⟩ c =
      (⟨.IN_CRITERIA, b, candidates s, candidates c, []⟩ : ScanState) := by
    rw [foldl_scan_crit c _ rfl hc]
    simp
  have e7 : List.foldl scanLine ⟨.IN_CRITERIA, b, candidates s, candidates c, []⟩
      ["% @@END_CRITERIA", "% @@BEGIN_COURSES"] =
      (⟨.IN_COURSES, b, candidates s, candidates c, []⟩ : ScanState) := rfl
  have e8 : List.foldl scanLine ⟨.IN_COURSES, b, candidates s, candidates c, []⟩ k =
      (⟨.IN_COURSES, b, candidates s, candidates c, candidates k⟩ : ScanState) := by
    rw [foldl_scan_courses k _ rfl hk]
    simp
  have e9 : List.foldl scanLine ⟨.IN_COURSES, b, candidates s, candidates c, candidates k⟩
      ["% @@END_COURSES"] =
      (⟨.OUTSIDE, b, candidates s, candidates c, candidates k⟩ : ScanState) := rfl
  simp only [List.foldl_append]
  rw [e1, e2, e3, e4, e5, e6, e7, e8, e9]

theorem parse_mkTemplate (b s c k : List String)
    (hb : ∀ l ∈ b, notMarker l = true) (hs : ∀ l ∈ s, notMarker l = true)
    (hc : ∀ l ∈ c, notMarker l = true) (hk : ∀ l ∈ k, notMarker l = true)
    (hbf : ∀ l ∈ b, lineFree l = true) (hsf : ∀ l ∈ s, lineFree l = true)
    (hcf : ∀ l ∈ c, lineFree l = true) (hkf : ∀ l ∈ k, lineFree l = true) :
    parse_template (mkTemplate b s c k) =
      finishParse ⟨.OUTSIDE, b, candidates s, candidates c, candidates k⟩ := by
  unfold parse_template
  rw [scan_mkTemplate b s c k hb hs hc hk hbf hsf hcf hkf]

/-! ## Rendered `\criterion` and `\course` lines -/

theorem pyStrip_sandwich (c0 : Char) (mid : List Char) (cl : Char)
    (h0 : pyIsSpace c0 = false) (hl : pyIsSpace cl = false) :
    pyStrip ⟨c0 :: mid ++ [cl]⟩ = ⟨c0 :: mid ++ [cl]⟩ := by
  unfold pyStrip
  simp [List.dropWhile_cons, h0, hl, List.reverse_append]

theorem braceFree_elim {s : String} (h : braceFree s = true) :
    ∀ x ∈ s.data, x ≠ '\x7d' := by
  intro x hx
  have := List.all_eq_true.mp h x hx
  simpa using this

theorem pyStrip_renderCriterion (d p : String) :
    pyStrip (renderCriterion d p) = renderCriterion d p := by
  rw [show renderCriterion d p =
        ⟨'\\' :: ("criterion\x7b".data ++ d.data ++ ['\x7d', '\x7b'] ++ p.data) ++ ['\x7d']⟩
      from rfl]
  exact pyStrip_sandwich '\\' _ '\x7d' (by decide) (by decide)

theorem isCandidate_renderCriterion (d p : String) :
    isCandidate (renderCriterion d p) = true := rfl

theorem notMarker_renderCriterion (d p : String) :
    notMarker (renderCriterion d p) = true := by
  unfold notMarker
  rw [pyStrip_renderCriterion]
  rfl

theorem lineFree_renderCriterion (d p : String)
    (hd : lineFree d = true) (hp : lineFree p = true) :
    lineFree (renderCriterion d p) = true := by
  unfold lineFree at *
  rw [show (renderCriterion d p).data =
        '\\' :: ("criterion\x7b".data ++ d.data ++ ['\x7d', '\x7b'] ++ p.data) ++ ['\x7d']
      from rfl]
  simp only [List.all_cons, List.all_append, hd, hp]
  decide

theorem matchCriterion_shape (d p : List Char)
    (hd : ∀ x ∈ d, x ≠ '\x7d') (hp : ∀ x ∈ p, x ≠ '\x7d') :
    matchCriterion ⟨"\\criterion\x7b".data ++ (d ++ '\x7d' :: '\x7b' :: (p ++ ['\x7d']))⟩ =
      some (⟨d⟩, ⟨p⟩) := by
  have hd2 : ∀ x ∈ d, (decide (x ≠ '\x7d') : Bool) = true := by
    intro x hx
    simp [hd x hx]
  have hp2 : ∀ x ∈ p, (decide (x ≠ '\x7d') : Bool) = true := by
    intro x hx
    simp [hp x hx]
  unfold matchCriterion
  have h0 : List.dropWhile pyIsSpace
      ((String.mk ("\\criterion\x7b".data ++ (d ++ '\x7d' :: '\x7b' :: (p ++ ['\x7d'])))).data) =
      "\\criterion\x7b".data ++ (d ++ '\x7d' :: '\x7b' :: (p ++ ['\x7d'])) := by
    rw [show (String.mk ("\\criterion\x7b".data ++ (d ++ '\x7d' :: '\x7b' :: (p ++ ['\x7d'])))).data =
          '\\' :: ("criterion\x7b".data ++ (d ++ '\x7d' :: '\x7b' :: (p ++ ['\x7d']))) from rfl]
    rw [List.dropWhile_cons, show pyIsSpace '\\' = false from by decide]
    simp
  rw [h0]
  simp only [matchLit_self_append]
  simp only [takeWhile_append_end d '\x7d' ('\x7b' :: (p ++ ['\x7d'])) hd2 (by decide),
    dropWhile_append_end d '\x7d' ('\x7b' :: (p ++ ['\x7d'])) hd2 (by decide)]
  simp only [show matchLit ['\x7d', '\x7b'] ('\x7d' :: '\x7b' :: (p ++ ['\x7d'])) =
    some (p ++ ['\x7d']) from by simp [matchLit]]
  simp only [takeWhile_append_end p '\x7d' [] hp2 (by decide),
    dropWhile_append_end p '\x7d' [] hp2 (by decide)]
  simp [matchLit]

theorem matchCriterion_render (d p : String)
    (hd : braceFree d = true) (hp : braceFree p = true) :
    matchCriterion (renderCriterion d p) = some (d, p) := by
  have h := matchCriterion_shape d.data p.data (braceFree_elim hd) (braceFree_elim hp)
  have hshape : renderCriterion d p =
      ⟨"\\criterion\x7b".data ++ (d.data ++ '\x7d' :: '\x7b' :: (p.data ++ ['\x7d']))⟩ := by
    rw [← string_eta (renderCriterion d p), string_mk_eq_iff]
    simp [renderCriterion, data_append, List.append_assoc]
  rw [hshape]
  exact h

theorem pyStrip_renderCourse (c d t : String) :
    pyStrip (renderCourse c d t) = renderCourse c d t := by
  rw [show renderCourse c d t =
        ⟨'\\' :: ("course\x7b".data ++ c.data ++ ['\x7d', '\x7b'] ++ d.data ++ ['\x7d', '\x7b'] ++
          t.data) ++ ['\x7d']⟩ from rfl]
  exact pyStrip_sandwich '\\' _ '\x7d' (by decide) (by decide)

theorem isCandidate_renderCourse (c d t : String) :
    isCandidate (renderCourse c d t) = true := rfl

theorem notMarker_renderCourse (c d t : String) :
    notMarker (renderCourse c d t) = true := by
  unfold notMarker
  rw [pyStrip_renderCourse]
  rfl

theorem lineFree_renderCourse (c d t : String)
    (hc : lineFree c = true) (hd : lineFree d = true) (ht : lineFree t = true) :
    lineFree (renderCourse c d t) = true := by
  unfold lineFree at *
  rw [show (renderCourse c d t).data =
        '\\' :: ("course\x7b".data ++ c.data ++ ['\x7d', '\x7b'] ++ d.data ++ ['\x7d', '\x7b'] ++
          t.data) ++ ['\x7d'] from rfl]
  simp only [List.all_cons, List.all_append, hc, hd, ht]
  decide

theorem matchCourse_shape (c d t : List Char)
    (hc : ∀ x ∈ c, x ≠ '\x7d') (hd : ∀ x ∈ d, x ≠ '\x7d') (ht : ∀ x ∈ t, x ≠ '\x7d') :
    matchCourse ⟨"\\course\x7b".data ++
        (c ++ '\x7d' :: '\x7b' :: (d ++ '\x7d' :: '\x7b' :: (t ++ ['\x7d'])))⟩ =
      some (⟨c⟩, ⟨d⟩, ⟨t⟩) := by
  have hc2 : ∀ x ∈ c, (decide (x ≠ '\x7d') : Bool) = true := by
    intro x hx
    simp [hc x hx]
  have hd2 : ∀ x ∈ d, (decide (x ≠ '\x7d') : Bool) = true := by
    intro x hx
    simp [hd x hx]
  have ht2 : ∀ x ∈ t, (decide (x ≠ '\x7d') : Bool) = true := by
    intro x hx
    simp [ht x hx]
  unfold matchCourse
  have h0 : List.dropWhile pyIsSpace
      ((String.mk ("\\course\x7b".data ++
        (c ++ '\x7d' :: '\x7b' :: (d ++ '\x7d' :: '\x7b' :: (t ++ ['\x7d']))))).data) =
      "\\course\x7b".data ++
        (c ++ '\x7d' :: '\x7b' :: (d ++ '\x7d' :: '\x7b' :: (t ++ ['\x7d']))) := by
    rw [show (String.mk ("\\course\x7b".data ++
          (c ++ '\x7d' :: '\x7b' :: (d ++ '\x7d' :: '\x7b' :: (t ++ ['\x7d']))))).data =
          '\\' :: ("course\x7b".data ++
            (c ++ '\x7d' :: '\x7b' :: (d ++ '\x7d' :: '\x7b' :: (t ++ ['\x7d'])))) from rfl]
    rw [List.dropWhile_cons, show pyIsSpace '\\' = false from by decide]
    simp
  rw [h0]
  simp only [matchLit_self_append]
  simp only [takeWhile_append_end c '\x7d' ('\x7b' :: (d ++ '\x7d' :: '\x7b' :: (t ++ ['\x7d']))) hc2 (by decide),
    dropWhile_append_end c '\x7d' ('\x7b' :: (d ++ '\x7d' :: '\x7b' :: (t ++ ['\x7d']))) hc2 (by decide)]
  simp only [show matchLit ['\x7d', '\x7b']
    ('\x7d' :: '\x7b' :: (d ++ '\x7d' :: '\x7b' :: (t ++ ['\x7d']))) =
    some (d ++ '\x7d' :: '\x7b' :: (t ++ ['\x7d'])) from by simp [matchLit]]
  simp only [takeWhile_append_end d '\x7d' ('\x7b' :: (t ++ ['\x7d'])) hd2 (by decide),
    dropWhile_append_end d '\x7d' ('\x7b' :: (t ++ ['\x7d'])) hd2 (by decide)]
  simp only [show matchLit ['\x7d', '\x7b'] ('\x7d' :: '\x7b' :: (t ++ ['\x7d'])) =
    some (t ++ ['\x7d']) from by simp [matchLit]]
  simp only [takeWhile_append_end t '\x7d' [] ht2 (by decide),
    dropWhile_append_end t '\x7d' [] ht2 (by decide)]
  simp [matchLit]

theorem matchCourse_render (c d t : String)
    (hc : braceFree c = true) (hd : braceFree d = true) (ht : braceFree t = true) :
    matchCourse (renderCourse c d t) = some (c, d, t) := by
  have h := matchCourse_shape c.data d.data t.data
    (braceFree_elim hc) (braceFree_elim hd) (braceFree_elim ht)
  have hshape : renderCourse c d t =
      ⟨"\\course\x7b".data ++
        (c.data ++ '\x7d' :: '\x7b' :: (d.data ++ '\x7d' :: '\x7b' :: (t.data ++ ['\x7d'])))⟩ := by
    rw [← string_eta (renderCourse c d t), string_mk_eq_iff]
    simp [renderCourse, data_append, List.append_assoc]
  rw [hshape]
  exact h

/-! ## Candidate collection and section validation -/

theorem candidates_cons_keep (l : String) (ls : List String)
    (h1 : pyStrip l = l) (h2 : isCandidate l = true) :
    candidates (l :: ls) = l :: candidates ls := by
  simp [candidates, List.filterMap_cons, h1, h2]

theorem candidates_cons_drop (l : String) (ls : List String)
    (h2 : isCandidate (pyStrip l) = false) :
    candidates (l :: ls) = candidates ls := by
  simp [candidates, List.filterMap_cons, h2]

theorem candidates_renders (entries : List CLine) (h : ∀ e ∈ entries, CLineOK e) :
    candidates (entries.map CLine.render) = entries.filterMap CLine.cand := by
  induction entries with
  | nil => rfl
  | cons e es ih =>
    have he := h e (by simp)
    have ihr := ih (fun x hx => h x (by simp [hx]))
    cases e with
    | crit d p n =>
      rw [List.map_cons, show CLine.render (.crit d p n) = renderCriterion d p from rfl]
      rw [candidates_cons_keep _ _ (pyStrip_renderCriterion d p) (isCandidate_renderCriterion d p)]
      rw [ihr]
      simp [List.filterMap_cons, CLine.cand]
    | skip s2 =>
      obtain ⟨hf, hcand, hnm⟩ := he
      rw [List.map_cons, show CLine.render (.skip s2) = s2 from rfl]
      rw [candidates_cons_drop _ _ hcand, ihr]
      simp [List.filterMap_cons, CLine.cand]

theorem entries_notMarker (entries : List CLine) (h : ∀ e ∈ entries, CLineOK e) :
    ∀ l ∈ entries.map CLine.render, notMarker l = true := by
  intro l hl
  rw [List.mem_map] at hl
  obtain ⟨e, he, rfl⟩ := hl
  have hOK := h e he
  cases e with
  | crit d p n => exact notMarker_renderCriterion d p
  | skip s2 => exact hOK.2.2

theorem entries_lineFree (entries : List CLine) (h : ∀ e ∈ entries, CLineOK e) :
    ∀ l ∈ entries.map CLine.render, lineFree l = true := by
  intro l hl
  rw [List.mem_map] at hl
  obtain ⟨e, he, rfl⟩ := hl
  have hOK := h e he
  cases e with
  | crit d p n => exact lineFree_renderCriterion d p hOK.2.2.1 hOK.2.2.2.1
  | skip s2 => exact hOK.1

theorem parseCriteria_renders (entries : List CLine) (h : ∀ e ∈ entries, CLineOK e) :
    parseCriteria (entries.filterMap CLine.cand) = .ok (entries.filterMap CLine.out) := by
  induction entries with
  | nil => rfl
  | cons e es ih =>
    have he := h e (by simp)
    have ihr := ih (fun x hx => h x (by simp [hx]))
    cases e with
    | crit d p n =>
      obtain ⟨hbd, hbp, hfd, hfp, hint⟩ := he
      simp only [List.filterMap_cons, CLine.cand, CLine.out]
      simp [parseCriteria, matchCriterion_render d p hbd hbp, hint, ihr]
    | skip s2 =>
      simp only [List.filterMap_cons, CLine.cand, CLine.out]
      exact ihr

theorem parseCriteria_append_bad (entries : List CLine) (h : ∀ e ∈ entries, CLineOK e)
    (bad : String) (hbad : matchCriterion bad = none) (rest : List String) :
    parseCriteria (entries.filterMap CLine.cand ++ bad :: rest) =
      .error (.badCriterionLine bad) := by
  induction entries with
  | nil => simp [parseCriteria, hbad]
  | cons e es ih =>
    have he := h e (by simp)
    have ihr := ih (fun x hx => h x (by simp [hx]))
    cases e with
    | crit d p n =>
      obtain ⟨hbd, hbp, hfd, hfp, hint⟩ := he
      simp only [List.filterMap_cons, List.cons_append]
      simp [parseCriteria, matchCriterion_render d p hbd hbp, hint, ihr]
    | skip s2 =>
      simp only [List.filterMap_cons]
      exact ihr

theorem parseCriteria_append_badPoints (entries : List CLine) (h : ∀ e ∈ entries, CLineOK e)
    (d p : String) (hbd : braceFree d = true) (hbp : braceFree p = true)
    (hint : pyInt (pyStrip p) = none) (rest : List String) :
    parseCriteria (entries.filterMap CLine.cand ++ renderCriterion d p :: rest) =
      .error (.badPoints (pyStrip p)) := by
  induction entries with
  | nil => simp [parseCriteria, matchCriterion_render d p hbd hbp, hint]
  | cons e es ih =>
    have he := h e (by simp)
    have ihr := ih (fun x hx => h x (by simp [hx]))
    cases e with
    | crit d2 p2 n =>
      obtain ⟨hbd2, hbp2, hfd2, hfp2, hint2⟩ := he
      simp only [List.filterMap_cons, List.cons_append]
      simp [parseCriteria, matchCriterion_render d2 p2 hbd2 hbp2, hint2, ihr]
    | skip s2 =>
      simp only [List.filterMap_cons]
      exact ihr

theorem parseCourses_single (c d t : String)
    (hbc : braceFree c = true) (hbd : braceFree d = true) (hbt : braceFree t = true)
    (dv : Difficulty) (hdv : difficultyOfValue (pyLower (pyStrip d)) = some dv) :
    parseCourses [renderCourse c d t] [] = .ok [(pyStrip c, ⟨dv, topicOf t⟩)] := by
  simp [parseCourses, matchCourse_render c d t hbc hbd hbt, hdv, dictInsert, topicOf]

theorem parseCourses_pair (c1 d1 t1 c2 d2 t2 : String)
    (hbc1 : braceFree c1 = true) (hbd1 : braceFree d1 = true) (hbt1 : braceFree t1 = true)
    (hbc2 : braceFree c2 = true) (hbd2 : braceFree d2 = true) (hbt2 : braceFree t2 = true)
    (hcode : pyStrip c1 = pyStrip c2)
    (dv1 dv2 : Difficulty)
    (h1 : difficultyOfValue (pyLower (pyStrip d1)) = some dv1)
    (h2 : difficultyOfValue (pyLower (pyStrip d2)) = some dv2) :
    parseCourses [renderCourse c1 d1 t1, renderCourse c2 d2 t2] [] =
      .ok [(pyStrip c1, ⟨dv2, topicOf t2⟩)] := by
  simp [parseCourses, matchCourse_render c1 d1 t1 hbc1 hbd1 hbt1,
    matchCourse_render c2 d2 t2 hbc2 hbd2 hbt2, h1, h2, dictInsert, hcode, topicOf]

/-! ## Assembling `finishParse` -/

theorem finishParse_emptyBody (fin : ScanState)
    (h : pyStrip (joinNl fin.body_lines) = "") :
    finishParse fin = .error .emptyBody := by
  simp [finishParse, h]

theorem finishParse_components (stx : SectionState) (b sol crit crs : List String)
    (hbody : pyStrip (joinNl b) ≠ "")
    (cr : List Criterion) (hcr : parseCriteria crit = .ok cr)
    (co : List (String × CourseAssignment)) (hco : parseCourses crs [] = .ok co) :
    finishParse ⟨stx, b, sol, crit, crs⟩ =
      .ok ⟨pyStrip (joinNl b), cr,
           if pyStrip (joinNl sol) = "" then none else some (pyStrip (joinNl sol)), co⟩ := by
  simp [finishParse, hbody, hcr, hco]

theorem finishParse_criteria_error (stx : SectionState) (b sol crit crs : List String)
    (hbody : pyStrip (joinNl b) ≠ "")
    (e : TemplateParseError) (hcr : parseCriteria crit = .error e) :
    finishParse ⟨stx, b, sol, crit, crs⟩ = .error e := by
  simp [finishParse, hbody, hcr]

/-! ## All-whitespace bodies -/

theorem pyStrip_all_space (s : String) (h : ∀ c ∈ s.data, pyIsSpace c = true) :
    pyStrip s = "" := by
  unfold pyStrip
  rw [dropWhile_all_nil s.data h]
  rfl

theorem joinNl_all_space (L : List String) (h : ∀ l ∈ L, ∀ c ∈ l.data, pyIsSpace c = true) :
    ∀ c ∈ (joinNl L).data, pyIsSpace c = true := by
  induction L with
  | nil => simp [joinNl]
  | cons l ls ih =>
    cases ls with
    | nil => exact h l (by simp)
    | cons m ms =>
      intro c hc
      rw [show joinNl (l :: m :: ms) = l ++ "\n" ++ joinNl (m :: ms) from rfl] at hc
      simp only [data_append, List.append_assoc, List.mem_append] at hc
      rcases hc with hc | hc | hc
      · exact h l (by simp) c hc
      · have hcn : c = '\n' := by simpa using hc
        rw [hcn]
        decide
      · exact ih (fun x hx => h x (by simp [hx])) c hc

theorem notMarker_of_strip_empty (l : String) (h : pyStrip l = "") : notMarker l = true := by
  unfold notMarker
  rw [h]
  rfl

theorem candidates_cons_of_candidate (l : String) (ls : List String)
    (h : isCandidate (pyStrip l) = true) :
    candidates (l :: ls) = pyStrip l :: candidates ls := by
  simp [candidates, List.filterMap_cons, h]

theorem notMarker_of_candidate (l : String) (h : isCandidate (pyStrip l) = true) :
    notMarker l = true := by
  cases hn : notMarker l
  · exfalso
    have hmem : pyStrip l ∈ markerStrings := by
      simpa [notMarker] using hn
    simp only [markerStrings, List.mem_cons, List.not_mem_nil, or_false] at hmem
    rcases hmem with hm | hm | hm | hm | hm | hm | hm | hm <;>
      (rw [hm] at h; exact absurd h (by decide))
  · rfl

theorem difficultyOfValue_value (s : String) (dv : Difficulty)
    (h : difficultyOfValue s = some dv) : dv.value = s := by
  unfold difficultyOfValue at h
  split_ifs at h with h1 h2 h3
  · injection h with h4
    subst h4
    rw [h1]
    rfl
  · injection h with h4
    subst h4
    rw [h2]
    rfl
  · injection h with h4
    subst h4
    rw [h3]
    rfl

/-! ## The claims -/

/-- C8: for every valid template with a single BODY region, `parse_template`
returns a body equal to the region's lines joined verbatim (blank lines and
`%` comment lines included) with only outer leading/trailing whitespace
trimmed; interior formatting is unchanged. -/
theorem C8_body_verbatim (b : List String)
    (hbf : ∀ l ∈ b, lineFree l = true)
    (hbm : ∀ l ∈ b, notMarker l = true)
    (hne : pyStrip (joinNl b) ≠ "") :
    parse_template (mkTemplate b [] [] []) = .ok ⟨pyStrip (joinNl b), [], none, []⟩ := by
  rw [parse_mkTemplate b [] [] [] hbm (by simp) (by simp) (by simp)
      hbf (by simp) (by simp) (by simp)]
  rw [finishParse_components .OUTSIDE b (candidates []) (candidates []) (candidates [])
      hne [] rfl [] rfl]
  rfl

/-- Witness for C8 at a concrete body with a blank line, a comment line and
outer whitespace. -/
theorem C8_witness :
    parse_template (mkTemplate ["Line one.", "", "% keep me", "  Line two.  "] [] [] []) =
      .ok ⟨"Line one.\n\n% keep me\n  Line two.", [], none, []⟩ :=
  C8_body_verbatim ["Line one.", "", "% keep me", "  Line two.  "]
    (by decide) (by decide) (by decide)

/-- C3: whenever the BODY region joins and trims to the empty string,
`parse_template` fails with the EmptyBody error, whatever the SOLUTION,
CRITERIA and COURSES sections contain (their lines need only not be the
`% @@BEGIN_BODY` marker, which would reopen the body region), and no
`ParsedTemplate` is produced. -/
theorem C3_empty_body (b s c k : List String)
    (hbsp : ∀ l ∈ b, ∀ ch ∈ l.data, pyIsSpace ch = true)
    (hbf : ∀ l ∈ b, lineFree l = true)
    (hsf : ∀ l ∈ s, lineFree l = true) (hcf : ∀ l ∈ c, lineFree l = true)
    (hkf : ∀ l ∈ k, lineFree l = true)
    (hs : ∀ l ∈ s, pyStrip l ≠ "% @@BEGIN_BODY")
    (hc : ∀ l ∈ c, pyStrip l ≠ "% @@BEGIN_BODY")
    (hk : ∀ l ∈ k, pyStrip l ≠ "% @@BEGIN_BODY") :
    parse_template (mkTemplate b s c k) = .error .emptyBody := by
  have hbm : ∀ l ∈ b, notMarker l = true := fun l hl =>
    notMarker_of_strip_empty l (pyStrip_all_space l (hbsp l hl))
  unfold parse_template
  rw [pySplitlines_mkTemplate b s c k hbf hsf hcf hkf]
  have hL : ["% @@BEGIN_BODY"] ++ b ++ ["% @@END_BODY", "% @@BEGIN_SOLUTION"] ++ s ++
      ["% @@END_SOLUTION", "% @@BEGIN_CRITERIA"] ++ c ++
      ["% @@END_CRITERIA", "% @@BEGIN_COURSES"] ++ k ++ ["% @@END_COURSES"] =
      (["% @@BEGIN_BODY"] ++ b) ++
      (["% @@END_BODY", "% @@BEGIN_SOLUTION"] ++ s ++
       ["% @@END_SOLUTION", "% @@BEGIN_CRITERIA"] ++ c ++
       ["% @@END_CRITERIA", "% @@BEGIN_COURSES"] ++ k ++ ["% @@END_COURSES"]) := by
    simp [List.append_assoc]
  rw [hL, List.foldl_append]
  have e1 : List.foldl scanLine initScan (["% @@BEGIN_BODY"] ++ b) =
      (⟨.IN_BODY, b, [], [], []⟩ : ScanState) := by
    rw [List.foldl_append]
    rw [show List.foldl scanLine initScan ["% @@BEGIN_BODY"] =
        (⟨.IN_BODY, [], [], [], []⟩ : ScanState) from rfl]
    rw [foldl_scan_body b _ rfl hbm]
    simp
  rw [e1]
  have hrest : ∀ l ∈ ["% @@END_BODY", "% @@BEGIN_SOLUTION"] ++ s ++
      ["% @@END_SOLUTION", "% @@BEGIN_CRITERIA"] ++ c ++
      ["% @@END_CRITERIA", "% @@BEGIN_COURSES"] ++ k ++ ["% @@END_COURSES"],
      pyStrip l ≠ "% @@BEGIN_BODY" := by
    intro l hl
    simp only [List.append_assoc, List.mem_append, List.mem_cons, List.mem_singleton,
      List.not_mem_nil, or_false] at hl
    rcases hl with (h | h) | h | (h | h) | h | (h | h) | h | h
    all_goals
      first
        | exact hs l h
        | exact hc l h
        | exact hk l h
        | (subst h; decide)
  -- the start state of the second fold is IN_BODY; step once over "% @@END_BODY" first
  rw [show (["% @@END_BODY", "% @@BEGIN_SOLUTION"] ++ s ++
      ["% @@END_SOLUTION", "% @@BEGIN_CRITERIA"] ++ c ++
      ["% @@END_CRITERIA", "% @@BEGIN_COURSES"] ++ k ++ ["% @@END_COURSES"]) =
      ["% @@END_BODY"] ++ (["% @@BEGIN_SOLUTION"] ++ s ++
      ["% @@END_SOLUTION", "% @@BEGIN_CRITERIA"] ++ c ++
      ["% @@END_CRITERIA", "% @@BEGIN_COURSES"] ++ k ++ ["% @@END_COURSES"]) from by
    simp [List.append_assoc]]
  rw [List.foldl_append]
  rw [show List.foldl scanLine ⟨.IN_BODY, b, [], [], []⟩ ["% @@END_BODY"] =
      (⟨.OUTSIDE, b, [], [], []⟩ : ScanState) from rfl]
  have hrest2 : ∀ l ∈ ["% @@BEGIN_SOLUTION"] ++ s ++
      ["% @@END_SOLUTION", "% @@BEGIN_CRITERIA"] ++ c ++
      ["% @@END_CRITERIA", "% @@BEGIN_COURSES"] ++ k ++ ["% @@END_COURSES"],
      pyStrip l ≠ "% @@BEGIN_BODY" := by
    intro l hl
    simp only [List.append_assoc, List.mem_append, List.mem_cons, List.mem_singleton,
      List.not_mem_nil, or_false] at hl
    rcases hl with h | h | (h | h) | h | (h | h) | h | h
    all_goals
      first
        | exact hs l h
        | exact hc l h
        | exact hk l h
        | (subst h; decide)
  obtain ⟨hbeq, _⟩ := foldl_scan_noBody _ ⟨.OUTSIDE, b, [], [], []⟩ (by simp) hrest2
  apply finishParse_emptyBody
  rw [hbeq]
  exact pyStrip_all_space (joinNl b) (joinNl_all_space b hbsp)

/-- Witness for C3: all-whitespace body; the other sections hold ill-formed
content that would not itself parse. -/
theorem C3_witness :
    parse_template (mkTemplate ["   ", "\t"] ["junk line"] ["not a criterion"]
      ["\\course\x7bX\x7d\x7bimpossible\x7d\x7b\x7d"]) = .error .emptyBody :=
  C3_empty_body ["   ", "\t"] ["junk line"] ["not a criterion"]
    ["\\course\x7bX\x7d\x7bimpossible\x7d\x7b\x7d"]
    (by decide) (by decide) (by decide) (by decide) (by decide)
    (by decide) (by decide) (by decide)

/-- C2: when every candidate line of the CRITERIA section has the form
`\criterion{D}{P}` with integer points, `parse_template` returns the
criteria in input order with description `D.strip()` and points `int(P)`;
blank and comment lines contribute no entry. -/
theorem C2_criteria (entries : List CLine) (h : ∀ e ∈ entries, CLineOK e) :
    parse_template (mkTemplate ["Q"] [] (entries.map CLine.render) []) =
      .ok ⟨"Q", entries.filterMap CLine.out, none, []⟩ := by
  rw [parse_mkTemplate ["Q"] [] (entries.map CLine.render) []
      (by decide) (by simp) (entries_notMarker entries h) (by simp)
      (by decide) (by simp) (entries_lineFree entries h) (by simp)]
  rw [candidates_renders entries h]
  rw [finishParse_components .OUTSIDE ["Q"] (candidates []) (entries.filterMap CLine.cand)
      (candidates []) (by decide) _ (parseCriteria_renders entries h) [] rfl]
  rfl

/-- Witness for C2: two criterion lines (one needing trimming) interleaved
with a comment line and a blank line. -/
theorem C2_witness :
    parse_template (mkTemplate ["Q"] []
      (List.map CLine.render
        [.crit "Defines DP" "4" 4, .skip "% note", .crit " Clear " " 6 " 6, .skip "  "]) []) =
      .ok ⟨"Q", [⟨"Defines DP", 4⟩, ⟨"Clear", 6⟩], none, []⟩ := by
  have h : ∀ e ∈ ([.crit "Defines DP" "4" 4, .skip "% note",
      .crit " Clear " " 6 " 6, .skip "  "] : List CLine), CLineOK e := by
    intro e he
    simp only [List.mem_cons, List.not_mem_nil, or_false] at he
    rcases he with rfl | rfl | rfl | rfl
    · exact ⟨by decide, by decide, by decide, by decide, by decide⟩
    · exact ⟨by decide, by decide, by decide⟩
    · exact ⟨by decide, by decide, by decide, by decide, by decide⟩
    · exact ⟨by decide, by decide, by decide⟩
  exact C2_criteria [.crit "Defines DP" "4" 4, .skip "% note",
    .crit " Clear " " 6 " 6, .skip "  "] h

/-- C1: a COURSES candidate line `\course{C}{Diff}{T}` whose difficulty is
case-insensitively one of easy/medium/hard parses successfully; the mapping
gets key `C.strip()` bound to a CourseAssignment whose difficulty is the
canonical lower-case enum value and whose topic is `T.strip()`, or absent
when `T.strip()` is empty. -/
theorem C1_course_line (C D T : String)
    (hbC : braceFree C = true) (hfC : lineFree C = true)
    (hbD : braceFree D = true) (hfD : lineFree D = true)
    (hbT : braceFree T = true) (hfT : lineFree T = true)
    (dv : Difficulty) (hdv : difficultyOfValue (pyLower (pyStrip D)) = some dv) :
    parse_template (mkTemplate ["Q"] [] [] [renderCourse C D T]) =
      .ok ⟨"Q", [], none, [(pyStrip C, ⟨dv, topicOf T⟩)]⟩ ∧
    dv.value = pyLower (pyStrip D) := by
  refine ⟨?_, difficultyOfValue_value _ dv hdv⟩
  rw [parse_mkTemplate ["Q"] [] [] [renderCourse C D T]
      (by decide) (by simp) (by simp)
      (by intro l hl
          rw [List.mem_singleton] at hl
          subst hl
          exact notMarker_renderCourse C D T)
      (by decide) (by simp) (by simp)
      (by intro l hl
          rw [List.mem_singleton] at hl
          subst hl
          exact lineFree_renderCourse C D T hfC hfD hfT)]
  rw [candidates_cons_keep _ [] (pyStrip_renderCourse C D T) (isCandidate_renderCourse C D T)]
  rw [finishParse_components .OUTSIDE ["Q"] (candidates []) (candidates [])
      (renderCourse C D T :: candidates []) (by decide) [] rfl _
      (parseCourses_single C D T hbC hbD hbT dv hdv)]
  rfl

/-- Witness for C1: mixed-case difficulty, code and topic with surrounding
whitespace. -/
theorem C1_witness :
    parse_template (mkTemplate ["Q"] [] [] [renderCourse "  CS101 " "EaSy" " Algebra "]) =
        .ok ⟨"Q", [], none, [("CS101", ⟨.easy, some "Algebra"⟩)]⟩ ∧
      Difficulty.easy.value = pyLower (pyStrip "EaSy") :=
  C1_course_line "  CS101 " "EaSy" " Algebra "
    (by decide) (by decide) (by decide) (by decide) (by decide) (by decide)
    .easy (by decide)

/-- C6: two valid course lines with the same (stripped) code yield exactly
one mapping entry for that code, holding the later line's difficulty and
topic; no duplicate-key error is raised. -/
theorem C6_last_write_wins (C1s D1 T1 C2s D2 T2 : String)
    (hbc1 : braceFree C1s = true) (hfc1 : lineFree C1s = true)
    (hbd1 : braceFree D1 = true) (hfd1 : lineFree D1 = true)
    (hbt1 : braceFree T1 = true) (hft1 : lineFree T1 = true)
    (hbc2 : braceFree C2s = true) (hfc2 : lineFree C2s = true)
    (hbd2 : braceFree D2 = true) (hfd2 : lineFree D2 = true)
    (hbt2 : braceFree T2 = true) (hft2 : lineFree T2 = true)
    (hcode : pyStrip C1s = pyStrip C2s)
    (dv1 dv2 : Difficulty)
    (h1 : difficultyOfValue (pyLower (pyStrip D1)) = some dv1)
    (h2 : difficultyOfValue (pyLower (pyStrip D2)) = some dv2) :
    parse_template (mkTemplate ["Q"] [] [] [renderCourse C1s D1 T1, renderCourse C2s D2 T2]) =
      .ok ⟨"Q", [], none, [(pyStrip C1s, ⟨dv2, topicOf T2⟩)]⟩ := by
  rw [parse_mkTemplate ["Q"] [] [] [renderCourse C1s D1 T1, renderCourse C2s D2 T2]
      (by decide) (by simp) (by simp)
      (by intro l hl
          simp only [List.mem_cons, List.not_mem_nil, or_false] at hl
          rcases hl with rfl | rfl
          · exact notMarker_renderCourse C1s D1 T1
          · exact notMarker_renderCourse C2s D2 T2)
      (by decide) (by simp) (by simp)
      (by intro l hl
          simp only [List.mem_cons, List.not_mem_nil, or_false] at hl
          rcases hl with rfl | rfl
          · exact lineFree_renderCourse C1s D1 T1 hfc1 hfd1 hft1
          · exact lineFree_renderCourse C2s D2 T2 hfc2 hfd2 hft2)]
  rw [candidates_cons_keep _ _ (pyStrip_renderCourse C1s D1 T1)
      (isCandidate_renderCourse C1s D1 T1)]
  rw [candidates_cons_keep _ [] (pyStrip_renderCourse C2s D2 T2)
      (isCandidate_renderCourse C2s D2 T2)]
  rw [finishParse_components .OUTSIDE ["Q"] (candidates []) (candidates [])
      (renderCourse C1s D1 T1 :: renderCourse C2s D2 T2 :: candidates []) (by decide) [] rfl _
      (parseCourses_pair C1s D1 T1 C2s D2 T2 hbc1 hbd1 hbt1 hbc2 hbd2 hbt2 hcode
        dv1 dv2 h1 h2)]
  rfl

/-- Witness for C6: the spec's own example, `\course{A}{easy}{X}` then
`\course{A}{hard}{Y}`. -/
theorem C6_witness :
    parse_template (mkTemplate ["Q"] [] []
        [renderCourse "A" "easy" "X", renderCourse "A" "hard" "Y"]) =
      .ok ⟨"Q", [], none, [("A", ⟨.hard, some "Y"⟩)]⟩ :=
  C6_last_write_wins "A" "easy" "X" "A" "hard" "Y"
    (by decide) (by decide) (by decide) (by decide) (by decide) (by decide)
    (by decide) (by decide) (by decide) (by decide) (by decide) (by decide)
    (by decide) .easy .hard (by decide) (by decide)

/-- C7 counterexample: with a BODY region captured before a second
`% @@BEGIN_BODY` marker, the content captured before the second occurrence
("first") still appears in the returned body — the second begin marker
does not reset the capture buffer, contradicting the claim that earlier
content does not appear in the section's result. -/
theorem C7_counterexample :
    parse_template (joinNl ["% @@BEGIN_BODY", "first", "% @@END_BODY",
        "% @@BEGIN_BODY", "second", "% @@END_BODY"]) =
      .ok ⟨"first\nsecond", [], none, []⟩ ∧
    containsSub ("first\nsecond").data "first".data = true := by
  exact ⟨rfl, rfl⟩

/-- C7 (amended): a second occurrence of a begin marker re-enters the
region and capture resumes, appending to the previously captured lines;
the content captured before the second occurrence still appears, before
the later content, in the section's result. -/
theorem C7_amended (b1 b2 : List String)
    (hf1 : ∀ l ∈ b1, lineFree l = true) (hm1 : ∀ l ∈ b1, notMarker l = true)
    (hf2 : ∀ l ∈ b2, lineFree l = true) (hm2 : ∀ l ∈ b2, notMarker l = true)
    (hne : pyStrip (joinNl (b1 ++ b2)) ≠ "") :
    parse_template (joinNl (["% @@BEGIN_BODY"] ++ b1 ++ ["% @@END_BODY", "% @@BEGIN_BODY"] ++
        b2 ++ ["% @@END_BODY"])) =
      .ok ⟨pyStrip (joinNl (b1 ++ b2)), [], none, []⟩ := by
  unfold parse_template
  have hsplit : pySplitlines (joinNl (["% @@BEGIN_BODY"] ++ b1 ++
      ["% @@END_BODY", "% @@BEGIN_BODY"] ++ b2 ++ ["% @@END_BODY"])) =
      ["% @@BEGIN_BODY"] ++ b1 ++ ["% @@END_BODY", "% @@BEGIN_BODY"] ++ b2 ++
        ["% @@END_BODY"] := by
    apply pySplitlines_joinNl
    · intro l hl
      simp only [List.append_assoc, List.mem_append, List.mem_cons, List.mem_singleton,
        List.not_mem_nil, or_false] at hl
      rcases hl with h | h | (h | h) | h | h
      all_goals
        first
          | exact hf1 l h
          | exact hf2 l h
          | (subst h; decide)
    · decide
  rw [hsplit]
  have e1 : List.foldl scanLine initScan ["% @@BEGIN_BODY"] =
      (⟨.IN_BODY, [], [], [], []⟩ : ScanState) := rfl
  have e2 : List.foldl scanLine ⟨.IN_BODY, [], [], [], []⟩ b1 =
      (⟨.IN_BODY, b1, [], [], []⟩ : ScanState) := by
    rw [foldl_scan_body b1 _ rfl hm1]
    simp
  have e3 : List.foldl scanLine ⟨.IN_BODY, b1, [], [], []⟩
      ["% @@END_BODY", "% @@BEGIN_BODY"] = (⟨.IN_BODY, b1, [], [], []⟩ : ScanState) := rfl
  have e4 : List.foldl scanLine ⟨.IN_BODY, b1, [], [], []⟩ b2 =
      (⟨.IN_BODY, b1 ++ b2, [], [], []⟩ : ScanState) := by
    rw [foldl_scan_body b2 _ rfl hm2]
  have e5 : List.foldl scanLine ⟨.IN_BODY, b1 ++ b2, [], [], []⟩ ["% @@END_BODY"] =
      (⟨.OUTSIDE, b1 ++ b2, [], [], []⟩ : ScanState) := rfl
  simp only [List.foldl_append]
  rw [e1, e2, e3, e4, e5]
  rw [finishParse_components .OUTSIDE (b1 ++ b2) [] [] [] hne [] rfl [] rfl]
  rfl

/-- Witness for the amended C7 at the counterexample's input. -/
theorem C7_witness :
    parse_template (joinNl (["% @@BEGIN_BODY"] ++ ["first"] ++
        ["% @@END_BODY", "% @@BEGIN_BODY"] ++ ["second"] ++ ["% @@END_BODY"])) =
      .ok ⟨"first\nsecond", [], none, []⟩ :=
  C7_amended ["first"] ["second"]
    (by decide) (by decide) (by decide) (by decide) (by decide)

/-- C9: serializing an `Item` with `save_item` and validating the written
document with `load_item` restores an `Item` equal to the original in
every field, including `id`.  (The YAML text layer is the external PyYAML
collaborator and is modelled as the identity on the document tree.) -/
theorem C9_roundtrip (it : Item) : load_item (save_item it).2 = some it := by
  cases it with
  | mk id body points courses criteria solution =>
    have hcourses : validateCoursesList
        (courses.map (fun kv => (kv.1, YValue.ystr kv.2.value))) = some courses := by
      induction courses with
      | nil => rfl
      | cons kv rest ih =>
        cases kv with
        | mk k v =>
          have hv : validateDifficulty (YValue.ystr v.value) = some v := by
            cases v <;> rfl
          simp [validateCoursesList, hv, ih]
    have hcriteria : validateCriteriaList (criteria.map Criterion.dump) = some criteria := by
      induction criteria with
      | nil => rfl
      | cons cr rest ih =>
        have hc : validateCriterion (Criterion.dump cr) = some cr := by
          cases cr
          rfl
        simp [validateCriteriaList, hc, ih]
    cases solution with
    | none =>
      show Item.model_validate (Item.model_dump ⟨id, body, points, courses, criteria, none⟩) =
        some ⟨id, body, points, courses, criteria, none⟩
      rw [show Item.model_validate (Item.model_dump ⟨id, body, points, courses, criteria, none⟩) =
          (match validateCoursesList (courses.map (fun kv => (kv.1, YValue.ystr kv.2.value))),
                 validateCriteriaList (criteria.map Criterion.dump) with
           | some cs, some crs => some ⟨id, body, points, cs, crs, none⟩
           | _, _ => none) from rfl]
      rw [hcourses, hcriteria]
    | some sol =>
      show Item.model_validate
          (Item.model_dump ⟨id, body, points, courses, criteria, some sol⟩) =
        some ⟨id, body, points, courses, criteria, some sol⟩
      rw [show Item.model_validate
            (Item.model_dump ⟨id, body, points, courses, criteria, some sol⟩) =
          (match validateCoursesList (courses.map (fun kv => (kv.1, YValue.ystr kv.2.value))),
                 validateCriteriaList (criteria.map Criterion.dump) with
           | some cs, some crs => some ⟨id, body, points, cs, crs, some sol⟩
           | _, _ => none) from rfl]
      rw [hcourses, hcriteria]

/-- C5 (evidence): the end-to-end scenario parses to body "Solve $x^2=4$.",
two criteria in input order worth 4 and 6 points, no solution, and one
course entry CS101 with difficulty easy and topic "Algebra"; the points
total `item_add` would compute is 10.  (models.py cannot represent this
course entry: it defines no `CourseAssignment` and declares
`Item.courses : dict[str, Difficulty]`, so constructing the claimed `Item`
from this parse fails.) -/
theorem C5_parse_end_to_end :
    parse_template (mkTemplate ["Solve $x^2=4$."] []
        ["\\criterion\x7bCorrect\x7d\x7b4\x7d", "\\criterion\x7bClear\x7d\x7b6\x7d"]
        ["\\course\x7bCS101\x7d\x7beasy\x7d\x7bAlgebra\x7d"]) =
      .ok ⟨"Solve $x^2=4$.", [⟨"Correct", 4⟩, ⟨"Clear", 6⟩], none,
           [("CS101", ⟨.easy, some "Algebra"⟩)]⟩ ∧
    item_points ⟨"Solve $x^2=4$.", [⟨"Correct", 4⟩, ⟨"Clear", 6⟩], none,
           [("CS101", ⟨.easy, some "Algebra"⟩)]⟩ = 10 := by
  exact ⟨rfl, rfl⟩

/-- C10: a line whose trimmed form is one of the eight marker strings is a
pure state transition no matter the current section — no buffer changes
and the new state is the marker's target — and consequently no line of the
captured body has a marker as its trimmed form. -/
theorem C10_markers :
    (∀ (st : ScanState) (line : String), pyStrip line ∈ markerStrings →
        scanLine st line = { st with state := markerTarget (pyStrip line) }) ∧
    (∀ (content : String), ∀ l ∈ ((pySplitlines content).foldl scanLine initScan).body_lines,
        pyStrip l ∉ markerStrings) := by
  constructor
  · exact scanLine_marker
  · intro content
    have inv : ∀ (lines : List String) (st : ScanState),
        (∀ x ∈ st.body_lines, pyStrip x ∉ markerStrings) →
        ∀ x ∈ (lines.foldl scanLine st).body_lines, pyStrip x ∉ markerStrings := by
      intro lines
      induction lines with
      | nil => intro st hst; exact hst
      | cons a as ih =>
        intro st hst
        rw [List.foldl_cons]
        apply ih
        by_cases hm : pyStrip a ∈ markerStrings
        · rw [scanLine_marker st a hm]
          exact hst
        · have hnm : notMarker a = true := by simp [notMarker, hm]
          cases hstate : st.state with
          | OUTSIDE =>
            rw [scanLine_outside st a hnm hstate]
            exact hst
          | IN_BODY =>
            rw [scanLine_body st a hnm hstate]
            intro x hx
            rcases List.mem_append.mp hx with hx | hx
            · exact hst x hx
            · rw [List.mem_singleton] at hx
              subst hx
              exact hm
          | IN_SOLUTION =>
            rw [scanLine_sol st a hnm hstate]
            split_ifs <;> exact hst
          | IN_CRITERIA =>
            rw [scanLine_crit st a hnm hstate]
            split_ifs <;> exact hst
          | IN_COURSES =>
            rw [scanLine_courses st a hnm hstate]
            split_ifs <;> exact hst
    exact inv (pySplitlines content) initScan (by intro x hx; simp [initScan] at hx)

/-- Witness for C10: an END_SOLUTION marker, indented, seen while inside
the BODY region, switches the state and captures nothing. -/
theorem C10_witness :
    scanLine ⟨.IN_BODY, ["x"], [], [], []⟩ "  % @@END_SOLUTION " =
      (⟨.OUTSIDE, ["x"], [], [], []⟩ : ScanState) :=
  C10_markers.1 ⟨.IN_BODY, ["x"], [], [], []⟩ "  % @@END_SOLUTION " (by decide)

/-! ## Python repr and error messages -/

theorem pyReprChar_safe (c : Char) (h : reprSafeChar c = true) :
    pyReprChar '\x27' c = [c] := by
  unfold reprSafeChar at h
  simp only [Bool.and_eq_true, decide_eq_true_eq] at h
  obtain ⟨⟨⟨h1, h2⟩, h3⟩, h4⟩ := h
  unfold pyReprChar
  rw [if_neg h3, if_neg h4]
  rw [if_neg (show ¬c = '\n' from fun he => by subst he; exact absurd h1 (by decide))]
  rw [if_neg (show ¬c = '\r' from fun he => by subst he; exact absurd h1 (by decide))]
  rw [if_neg (show ¬c = '\t' from fun he => by subst he; exact absurd h1 (by decide))]
  rw [if_neg (show ¬((decide (c.toNat < 0x20) || decide (c.toNat = 0x7f)) = true) from by
    simp only [Bool.or_eq_true, decide_eq_true_eq, not_or]
    exact ⟨by omega, by omega⟩)]

theorem flatten_reprChar (cs : List Char) (h : ∀ c ∈ cs, reprSafeChar c = true) :
    (cs.map (pyReprChar '\x27')).flatten = cs := by
  induction cs with
  | nil => rfl
  | cons c cs ih =>
    simp only [List.map_cons, List.flatten_cons]
    rw [pyReprChar_safe c (h c (by simp))]
    rw [ih (fun x hx => h x (by simp [hx]))]
    rfl

theorem pyRepr_safe (s : String) (h : reprSafe s = true) :
    pyRepr s = ⟨'\x27' :: (s.data ++ ['\x27'])⟩ := by
  have h27 : s.data.contains '\x27' = false := by
    by_contra hc
    rw [Bool.not_eq_false] at hc
    have hmem : '\x27' ∈ s.data := by simpa using hc
    have := List.all_eq_true.mp h _ hmem
    exact absurd this (by decide)
  have hfl := flatten_reprChar s.data (List.all_eq_true.mp h)
  have hmem : '\x27' ∉ s.data := by simpa using h27
  have hcond : ¬('\x27' ∈ s.data ∧ '"' ∉ s.data) := fun hcon => hmem hcon.1
  simp [pyRepr, hcond, hfl]

theorem containsSub_message_part (pre post s : String) (h : reprSafe s = true) :
    containsSub (pre ++ pyRepr s ++ post).data s.data = true := by
  rw [pyRepr_safe s h]
  rw [show (pre ++ (⟨'\x27' :: (s.data ++ ['\x27'])⟩ : String) ++ post).data =
        (pre.data ++ ['\x27']) ++ (s.data ++ (['\x27'] ++ post.data)) from by
    simp [data_append, List.append_assoc]]
  exact containsSub_append_mid _ _ _

theorem containsSub_message_tail (pre s : String) (h : reprSafe s = true) :
    containsSub (pre ++ pyRepr s).data s.data = true := by
  rw [pyRepr_safe s h]
  rw [show (pre ++ (⟨'\x27' :: (s.data ++ ['\x27'])⟩ : String)).data =
        (pre.data ++ ['\x27']) ++ (s.data ++ ['\x27']) from by
    simp [data_append, List.append_assoc]]
  exact containsSub_append_mid _ _ _

theorem candidates_append (xs ys : List String) :
    candidates (xs ++ ys) = candidates xs ++ candidates ys := by
  simp [candidates, List.filterMap_append]

/-- C4 counterexample: the criteria line `a\b` (one interior backslash)
fails with BadCriterionLine as required, but the message renders the line
through Python repr (`{raw!r}`), which escapes the backslash, so the
message does not contain the literal line itself. -/
theorem C4_counterexample :
    parse_template (mkTemplate ["Q"] [] ["a\\b"] []) =
        .error (.badCriterionLine "a\\b") ∧
      containsSub ((TemplateParseError.badCriterionLine "a\\b").message).data
        ("a\\b").data = false := by
  exact ⟨rfl, rfl⟩

/-- C4 (amended): the first CRITERIA candidate line not matching
`\criterion{...}{...}` makes `parse_template` fail with a BadCriterionLine
error carrying that candidate line; a matching line whose trimmed points
argument is ASCII text rejected by `int()` (not a base-10 integer literal)
makes it fail with a BadPoints error carrying that value.  The message
embeds the Python repr of the carried text, and hence contains the text
itself whenever that text consists of printable ASCII characters, none of
which is a backslash or a quote. -/
theorem C4_errors :
    (∀ (entries : List CLine), (∀ e ∈ entries, CLineOK e) →
      ∀ (bad : String), lineFree bad = true → isCandidate (pyStrip bad) = true →
        matchCriterion (pyStrip bad) = none →
      ∀ (post : List String), (∀ l ∈ post, lineFree l = true ∧ notMarker l = true) →
        parse_template (mkTemplate ["Q"] [] (entries.map CLine.render ++ bad :: post) []) =
            .error (.badCriterionLine (pyStrip bad)) ∧
          (reprSafe (pyStrip bad) = true →
            containsSub ((TemplateParseError.badCriterionLine (pyStrip bad)).message).data
              (pyStrip bad).data = true)) ∧
    (∀ (entries : List CLine), (∀ e ∈ entries, CLineOK e) →
      ∀ (d p : String), braceFree d = true → braceFree p = true →
        lineFree d = true → lineFree p = true →
        asciiOnly (pyStrip p) = true → pyInt (pyStrip p) = none →
      ∀ (post : List String), (∀ l ∈ post, lineFree l = true ∧ notMarker l = true) →
        parse_template
            (mkTemplate ["Q"] [] (entries.map CLine.render ++ renderCriterion d p :: post) []) =
            .error (.badPoints (pyStrip p)) ∧
          (reprSafe (pyStrip p) = true →
            containsSub ((TemplateParseError.badPoints (pyStrip p)).message).data
              (pyStrip p).data = true)) := by
  constructor
  · intro entries h bad hbadf hbadc hbadm post hpost
    constructor
    · rw [parse_mkTemplate ["Q"] [] (entries.map CLine.render ++ bad :: post) []
          (by decide) (by simp)
          (by intro l hl
              rcases List.mem_append.mp hl with hl | hl
              · exact entries_notMarker entries h l hl
              · rcases List.mem_cons.mp hl with rfl | hl
                · exact notMarker_of_candidate l hbadc
                · exact (hpost l hl).2)
          (by simp)
          (by decide) (by simp)
          (by intro l hl
              rcases List.mem_append.mp hl with hl | hl
              · exact entries_lineFree entries h l hl
              · rcases List.mem_cons.mp hl with rfl | hl
                · exact hbadf
                · exact (hpost l hl).1)
          (by simp)]
      rw [candidates_append, candidates_renders entries h,
        candidates_cons_of_candidate bad post hbadc]
      exact finishParse_criteria_error .OUTSIDE ["Q"] (candidates []) _ (candidates [])
        (by decide) _ (parseCriteria_append_bad entries h (pyStrip bad) hbadm (candidates post))
    · intro hsafe
      exact containsSub_message_part "Bad criterion line: "
        " — expected format: \\criterion\x7bdescription\x7d\x7bpoints\x7d" (pyStrip bad) hsafe
  · intro entries h d p hbd hbp hfd hfp hascii hint post hpost
    constructor
    · rw [parse_mkTemplate ["Q"] [] (entries.map CLine.render ++ renderCriterion d p :: post) []
          (by decide) (by simp)
          (by intro l hl
              rcases List.mem_append.mp hl with hl | hl
              · exact entries_notMarker entries h l hl
              · rcases List.mem_cons.mp hl with rfl | hl
                · exact notMarker_renderCriterion d p
                · exact (hpost l hl).2)
          (by simp)
          (by decide) (by simp)
          (by intro l hl
              rcases List.mem_append.mp hl with hl | hl
              · exact entries_lineFree entries h l hl
              · rcases List.mem_cons.mp hl with rfl | hl
                · exact lineFree_renderCriterion d p hfd hfp
                · exact (hpost l hl).1)
          (by simp)]
      rw [candidates_append, candidates_renders entries h,
        candidates_cons_keep _ post (pyStrip_renderCriterion d p)
          (isCandidate_renderCriterion d p)]
      exact finishParse_criteria_error .OUTSIDE ["Q"] (candidates []) _ (candidates [])
        (by decide) _
        (parseCriteria_append_badPoints entries h d p hbd hbp hint (candidates post))
    · intro hsafe
      exact containsSub_message_tail "Criterion points must be an integer, got: "
        (pyStrip p) hsafe

/-- Witness for the amended C4: a non-matching line, then a matching line
with non-integer points, each after one good criterion line; the messages
contain the offending text. -/
theorem C4_witness :
    (parse_template (mkTemplate ["Q"] []
          (List.map CLine.render [.crit "Good" "2" 2] ++ "No backslash here" :: []) []) =
        .error (.badCriterionLine "No backslash here") ∧
      containsSub ((TemplateParseError.badCriterionLine "No backslash here").message).data
        ("No backslash here").data = true) ∧
    (parse_template (mkTemplate ["Q"] []
          (List.map CLine.render [] ++ renderCriterion "Good answer" "four" :: []) []) =
        .error (.badPoints "four") ∧
      containsSub ((TemplateParseError.badPoints "four").message).data
        ("four").data = true) := by
  constructor
  · have h := (C4_errors.1 [.crit "Good" "2" 2]
      (by intro e he
          simp only [List.mem_singleton] at he
          subst he
          exact ⟨by decide, by decide, by decide, by decide, by decide⟩)
      "No backslash here" (by decide) (by decide) (by decide) [] (by simp))
    exact ⟨h.1, h.2 (by decide)⟩
  · have h := (C4_errors.2 [] (by simp) "Good answer" "four"
      (by decide) (by decide) (by decide) (by decide) (by decide) (by decide) [] (by simp))
    exact ⟨h.1, h.2 (by decide)⟩

end ExamMaker
